import Mathlib

/-!
Verification of a FAT32 read-only filesystem core.

This file contains a shallow embedding, in Lean 4, of the Rust sources of
the repository (boot-sector decoding, allocation-table decoding,
cluster-chain resolution, directory-entry decoding including long-name
reconstruction, path parsing and normalization, and the navigator
operations), together with theorems settling the specification claims.

Conventions of the embedding:
- Rust byte buffers (`&[u8]`, `Vec<u8>`) are `List Nat` with values below 256.
- Rust `String` / `&str` values are `List Char`; the byte length used by
  `str::len` is computed by `utf8Len`.
- Machine integers are `Nat`; 32-bit wrapping arithmetic is made explicit
  with `w32` (reduction modulo 2 ^ 32) at the places the source computes
  in `u32`.
- Fallible Rust functions returning `Result` become `Except`.
-/

deriving instance DecidableEq for Except

namespace FatSpec

/-- Reduction modulo 2 ^ 32, the wrap-around of Rust `u32` arithmetic. -/
def w32 (n : Nat) : Nat := n % 4294967296

/-- Little-endian 16-bit read at `off` (out-of-range bytes default to 0;
all uses are bounds-guarded upstream, as in the source). -/
def le16 (data : List Nat) (off : Nat) : Nat :=
  data.getD off 0 + 256 * data.getD (off + 1) 0

/-- Little-endian 32-bit read at `off`. -/
def le32 (data : List Nat) (off : Nat) : Nat :=
  data.getD off 0 + 256 * data.getD (off + 1) 0 + 65536 * data.getD (off + 2) 0 +
    16777216 * data.getD (off + 3) 0

/-- Fueled loop for `chunksExact`; every continuing step consumes `n ≥ 1`
elements, so fuel equal to the list length suffices. -/
def chunksExactAux (n : Nat) : Nat → List α → List (List α)
  | 0, _ => []
  | fuel + 1, l =>
    if 0 < n ∧ n ≤ l.length then l.take n :: chunksExactAux n fuel (l.drop n)
    else []

/-- `slice::chunks_exact(n)`: the successive length-`n` chunks of `l`,
dropping a final shorter remainder. -/
def chunksExact (n : Nat) (l : List α) : List (List α) :=
  chunksExactAux n l.length l

/-- UTF-8 byte size of a string given as a character list
(the value of Rust `str::len`). -/
def utf8Len (s : List Char) : Nat := (s.map Char.utf8Size).sum

/-- One step of UTF-8 decoding: decode the first scalar value from
`b :: bs`, returning the character and the remaining bytes.  Follows the
standard UTF-8 validity rules (as `core::str::from_utf8` checks them):
continuation bytes in `0x80..=0xBF`, no overlong forms, no surrogates,
maximum `0x10FFFF`. -/
def utf8Step (b : Nat) (bs : List Nat) : Option (Char × List Nat) :=
  if b < 0x80 then
    some (Char.ofNat b, bs)
  else if 0xC2 ≤ b ∧ b ≤ 0xDF then
    match bs with
    | b2 :: rest =>
      if 0x80 ≤ b2 ∧ b2 ≤ 0xBF then
        some (Char.ofNat ((b - 0xC0) * 64 + (b2 - 0x80)), rest)
      else none
    | [] => none
  else if 0xE0 ≤ b ∧ b ≤ 0xEF then
    match bs with
    | b2 :: b3 :: rest =>
      if (if b = 0xE0 then 0xA0 ≤ b2 ∧ b2 ≤ 0xBF
          else if b = 0xED then 0x80 ≤ b2 ∧ b2 ≤ 0x9F
          else 0x80 ≤ b2 ∧ b2 ≤ 0xBF) ∧ 0x80 ≤ b3 ∧ b3 ≤ 0xBF then
        some (Char.ofNat ((b - 0xE0) * 4096 + (b2 - 0x80) * 64 + (b3 - 0x80)), rest)
      else none
    | _ => none
  else if 0xF0 ≤ b ∧ b ≤ 0xF4 then
    match bs with
    | b2 :: b3 :: b4 :: rest =>
      if (if b = 0xF0 then 0x90 ≤ b2 ∧ b2 ≤ 0xBF
          else if b = 0xF4 then 0x80 ≤ b2 ∧ b2 ≤ 0x8F
          else 0x80 ≤ b2 ∧ b2 ≤ 0xBF) ∧ 0x80 ≤ b3 ∧ b3 ≤ 0xBF ∧ 0x80 ≤ b4 ∧ b4 ≤ 0xBF then
        some (Char.ofNat ((b - 0xF0) * 262144 + (b2 - 0x80) * 4096 + (b3 - 0x80) * 64 +
          (b4 - 0x80)), rest)
      else none
    | _ => none
  else none

/-- Fueled UTF-8 decoding loop; each step consumes at least one byte, so
fuel equal to the byte count suffices. -/
def utf8DecodeAux : Nat → List Nat → Option (List Char)
  | _, [] => some []
  | 0, _ :: _ => none
  | fuel + 1, b :: bs =>
    match utf8Step b bs with
    | none => none
    | some (c, rest) =>
      match utf8DecodeAux fuel rest with
      | none => none
      | some cs => some (c :: cs)

/-- `core::str::from_utf8` on a byte list: the decoded characters, or
`none` when the bytes are not valid UTF-8. -/
def utf8Decode? (l : List Nat) : Option (List Char) := utf8DecodeAux l.length l

/-- ASCII lower-casing of one character, as Rust `u8::to_ascii_lowercase`
acts on the bytes of a string. -/
def asciiLower (c : Char) : Char :=
  if 'A' ≤ c ∧ c ≤ 'Z' then Char.ofNat (c.toNat + 32) else c

/-- Rust `str::eq_ignore_ascii_case`. -/
def eqIgnoreAsciiCase (a b : List Char) : Bool :=
  a.map asciiLower = b.map asciiLower

/-! ## Errors (`src/fs/mod.rs` and `src/fs/path.rs`) -/

/-- `PathError` from `src/fs/path.rs`. -/
inductive PathError where
  | InvalidFormat : List Char → PathError
  | Empty : PathError
  | ComponentTooLong : PathError
deriving DecidableEq

/-- `FileSystemError` from `src/fs/mod.rs`. -/
inductive FileSystemError where
  | InvalidPath : List Char → FileSystemError
  | FileNotFound : List Char → FileSystemError
  | DirectoryNotFound : List Char → FileSystemError
  | InvalidFat : List Char → FileSystemError
  | InvalidBootSector : List Char → FileSystemError
  | ClusterChainError : List Char → FileSystemError
  | DirectoryEntryError : List Char → FileSystemError
  | IoError : List Char → FileSystemError
  | OutOfMemory : FileSystemError
  | Unsupported : List Char → FileSystemError
deriving DecidableEq

/-- Discriminator for the I/O-error kind. -/
def FileSystemError.is_io_error : FileSystemError → Bool
  | .IoError _ => true
  | _ => false

/-- `impl From<PathError> for FileSystemError` from `src/fs/mod.rs`. -/
def pathErrToFs : PathError → FileSystemError
  | .InvalidFormat s => .InvalidPath s
  | .Empty => .InvalidPath ("Empty path".toList)
  | .ComponentTooLong => .InvalidPath ("Path component too long".toList)

/-! ## Paths (`src/fs/path.rs`) -/

/-- `Path` from `src/fs/path.rs`: component list plus absolute flag. -/
structure Path where
  components : List (List Char)
  absolute : Bool
deriving DecidableEq

/-- Splitting a character list at every occurrence of `sep`, as Rust
`str::split(sep)` (the empty input yields one empty segment, adjacent
separators yield empty segments). -/
def splitOnChar (sep : Char) : List Char → List (List Char)
  | [] => [[]]
  | c :: rest =>
    match splitOnChar sep rest with
    | [] => [[]]
    | seg :: segs => if c = sep then [] :: seg :: segs else (c :: seg) :: segs

/-- The per-segment transformation inside `Path::new`: `..` is kept, a
segment longer than 255 bytes is replaced by the empty string, any other
segment is kept. -/
def pathMapSegment (s : List Char) : List Char :=
  if s = ['.', '.'] then ['.', '.']
  else if utf8Len s > 255 then []
  else s

/-- The final verification loop of `Path::new` over the collected
components: an empty component is `InvalidFormat`, a component longer
than 255 bytes is `ComponentTooLong`. -/
def pathCheckComponents : List (List Char) → Except PathError Unit
  | [] => .ok ()
  | comp :: rest =>
    if comp = [] then .error (.InvalidFormat ("Empty component".toList))
    else if utf8Len comp > 255 then .error .ComponentTooLong
    else pathCheckComponents rest

/-- The component-collection stage of `Path::new`: split the remainder
on separators, drop empty and `.` segments, apply the per-segment
transformation. -/
def pathComponents (rest : List Char) : List (List Char) :=
  if rest = [] then []
  else ((splitOnChar '/' rest).filter (fun s => s ≠ [] ∧ s ≠ ['.'])).map pathMapSegment

/-- `Path::new` from `src/fs/path.rs`. -/
def Path.new (path_str : List Char) : Except PathError Path :=
  if path_str = [] then .error .Empty
  else
    let absolute : Bool := decide (path_str.head? = some '/')
    let rest := if absolute then path_str.tail else path_str
    match pathCheckComponents (pathComponents rest) with
    | .error e => .error e
    | .ok _ => .ok { components := pathComponents rest, absolute := absolute }

/-- `Path::root`. -/
def Path.root : Path := { components := [], absolute := true }

/-- `Path::is_absolute`. -/
def Path.is_absolute (p : Path) : Bool := p.absolute

/-- `Path::is_root`. -/
def Path.is_root (p : Path) : Bool := p.absolute ∧ p.components = []

/-- The `..`-resolution fold inside `Path::join`: `..` pops the previous
component when one exists (a no-op at the front), anything else is
pushed. -/
def joinResolve (comps : List (List Char)) : List (List Char) :=
  comps.foldl
    (fun resolved component =>
      if component = ['.', '.'] then
        if resolved ≠ [] then resolved.dropLast else resolved
      else resolved ++ [component])
    []

/-- `Path::join` from `src/fs/path.rs` (the source returns `Result` but
never an error). -/
def Path.join (p other : Path) : Except PathError Path :=
  if other.is_absolute then .ok other
  else .ok { components := joinResolve (p.components ++ other.components),
             absolute := p.absolute }

/-- `Path::parent`. -/
def Path.parent (p : Path) : Option Path :=
  if p.components = [] then none
  else some { components := p.components.dropLast, absolute := p.absolute }

/-- `Path::file_name`. -/
def Path.file_name (p : Path) : Option (List Char) := p.components.getLast?

/-- Joining components with `/` separators, as the render loop of
`Path::to_string` does (a separator before every component except the
first). -/
def joinComps : List (List Char) → List Char
  | [] => []
  | [c] => c
  | c :: c2 :: cs => c ++ '/' :: joinComps (c2 :: cs)

/-- `Path::to_string`: leading separator when absolute, components joined
by separators. -/
def Path.to_string (p : Path) : List Char :=
  (if p.absolute then ['/'] else []) ++ joinComps p.components

/-- `PathBuf` from `src/fs/path.rs`. -/
structure PathBuf where
  path : Path
deriving DecidableEq

/-- `PathBuf::root`. -/
def PathBuf.root : PathBuf := { path := Path.root }

/-- `PathBuf::as_path`. -/
def PathBuf.as_path (p : PathBuf) : Path := p.path

/-- `PathBuf::to_string`. -/
def PathBuf.to_string (p : PathBuf) : List Char := p.path.to_string

/-- `impl From<Path> for PathBuf`. -/
def PathBuf.from (p : Path) : PathBuf := { path := p }

/-! ## Boot sector (`src/boot.rs`) -/

/-- The fields of the Rust `BootSector` record that the core reads
(geometry, validation tag and trailing signature).  Field values are the
little-endian integers stored at the documented offsets. -/
structure BootSector where
  bytes_per_sector_field : Nat
  sectors_per_cluster_field : Nat
  reserved_sector_count : Nat
  num_fats_field : Nat
  sectors_per_fat_32 : Nat
  root_cluster_field : Nat
  fs_type : List Nat
  boot_signature_end : Nat
deriving DecidableEq

/-- `BootSector::from_bytes`: requires at least 512 bytes, decodes the
fixed little-endian fields (`bytes_per_sector` at 0x0B,
`sectors_per_cluster` at 0x0D, `reserved_sector_count` at 0x0E,
`num_fats` at 0x10, `sectors_per_fat_32` at 0x24, `root_cluster` at 0x2C,
`fs_type` at 0x52, signature at 0x1FE), and validates that the type tag
starts with the four bytes of `FAT3` and that the signature is 0xAA55. -/
def BootSector.from_bytes (data : List Nat) : Except FileSystemError BootSector :=
  if data.length < 512 then
    .error (.InvalidBootSector ("Boot sector must be at least 512 bytes".toList))
  else
    let bs : BootSector :=
      { bytes_per_sector_field := le16 data 11
        sectors_per_cluster_field := data.getD 13 0
        reserved_sector_count := le16 data 14
        num_fats_field := data.getD 16 0
        sectors_per_fat_32 := le32 data 36
        root_cluster_field := le32 data 44
        fs_type := (data.drop 82).take 8
        boot_signature_end := le16 data 510 }
    if bs.fs_type.getD 0 0 ≠ 70 ∨ bs.fs_type.getD 1 0 ≠ 65 ∨
        bs.fs_type.getD 2 0 ≠ 84 ∨ bs.fs_type.getD 3 0 ≠ 51 then
      .error (.InvalidBootSector ("Not a FAT32 filesystem".toList))
    else if bs.boot_signature_end ≠ 0xAA55 then
      .error (.InvalidBootSector ("Invalid boot sector signature".toList))
    else
      .ok bs

/-- `BootSector::bytes_per_sector` (widening cast to `u32`). -/
def BootSector.bytes_per_sector (b : BootSector) : Nat := b.bytes_per_sector_field

/-- `BootSector::sectors_per_cluster`. -/
def BootSector.sectors_per_cluster (b : BootSector) : Nat := b.sectors_per_cluster_field

/-- `BootSector::cluster_size` (a `u16` by `u8` product, never wraps). -/
def BootSector.cluster_size (b : BootSector) : Nat :=
  b.bytes_per_sector * b.sectors_per_cluster

/-- `BootSector::fat_start_sector`. -/
def BootSector.fat_start_sector (b : BootSector) : Nat := b.reserved_sector_count

/-- `BootSector::data_start_sector` (`u32` arithmetic). -/
def BootSector.data_start_sector (b : BootSector) : Nat :=
  w32 (b.fat_start_sector + w32 (b.sectors_per_fat_32 * b.num_fats_field))

/-- `BootSector::root_cluster`. -/
def BootSector.root_cluster (b : BootSector) : Nat := b.root_cluster_field

/-- `BootSector::sectors_per_fat`. -/
def BootSector.sectors_per_fat (b : BootSector) : Nat := b.sectors_per_fat_32

/-! ## Allocation table (`src/fs/fat_table.rs`) -/

/-- `FatTable`: the decoded 28-bit allocation-table entries. -/
structure FatTable where
  entries : List Nat
deriving DecidableEq

/-- `FatTable::from_bytes`: the byte count must be a multiple of 4; each
4-byte little-endian group is masked to its low 28 bits (mod 2 ^ 28). -/
def FatTable.from_bytes (data : List Nat) : Except FileSystemError FatTable :=
  if data.length % 4 ≠ 0 then
    .error (.InvalidFat ("FAT table size must be multiple of 4".toList))
  else
    .ok { entries := (chunksExact 4 data).map (fun c => le32 c 0 % 0x10000000) }

/-- `FatTable::get_entry`: bounds-checked lookup. -/
def FatTable.get_entry (t : FatTable) (cluster : Nat) : Except FileSystemError Nat :=
  if t.entries.length ≤ cluster then
    .error (.InvalidFat ("Cluster out of FAT bounds".toList))
  else
    .ok (t.entries.getD cluster 0)

/-- `FatTable::is_end_of_chain` (safe default `true` out of range). -/
def FatTable.is_end_of_chain (t : FatTable) (cluster : Nat) : Bool :=
  if t.entries.length ≤ cluster then true
  else 0x0FFFFFF8 ≤ t.entries.getD cluster 0

/-- `FatTable::is_bad_cluster` (safe default `true` out of range). -/
def FatTable.is_bad_cluster (t : FatTable) (cluster : Nat) : Bool :=
  if t.entries.length ≤ cluster then true
  else t.entries.getD cluster 0 = 0x0FFFFFF7

/-- `FatTable::is_free_cluster` (safe default `false` out of range). -/
def FatTable.is_free_cluster (t : FatTable) (cluster : Nat) : Bool :=
  if t.entries.length ≤ cluster then false
  else t.entries.getD cluster 0 = 0

/-- `FatTable::len`. -/
def FatTable.len (t : FatTable) : Nat := t.entries.length

/-! ## Cluster chains (`src/cluster.rs`) -/

/-- `ClusterChain`: the resolved cluster list. -/
structure ClusterChain where
  clusters : List Nat
deriving DecidableEq

/-- The traversal loop of `ClusterChain::new`.  The source keeps an
`iterations` counter starting at 0 and fails once `iterations` reaches
`max_clusters = fat_table.len()`; here the remaining allowance
`max_clusters - iterations` is carried directly as structural fuel, so
fuel 0 is exactly the `iterations >= max_clusters` cap.  Otherwise the
loop appends the current cluster, looks up its entry, stops on an
end-of-chain marker (>= 0x0FFFFFF8), fails on the bad-cluster marker
0x0FFFFFF7, fails on a link below 2, and advances otherwise. -/
def ClusterChain.newGo (fat_table : FatTable) : Nat → Nat → List Nat →
    Except FileSystemError (List Nat)
  | 0, _, _ =>
    .error (.ClusterChainError ("Cluster chain too long or circular".toList))
  | fuel + 1, current, clusters =>
    let clusters := clusters ++ [current]
    match fat_table.get_entry current with
    | .error e => .error e
    | .ok next =>
      if 0x0FFFFFF8 ≤ next then .ok clusters
      else if next = 0x0FFFFFF7 then
        .error (.ClusterChainError ("Bad cluster in chain".toList))
      else if next < 2 then
        .error (.ClusterChainError ("Invalid next cluster number".toList))
      else ClusterChain.newGo fat_table fuel next clusters

/-- `ClusterChain::new`: rejects a start cluster below 2, then runs the
traversal loop with iteration cap `fat_table.len()`. -/
def ClusterChain.new (fat_table : FatTable) (start_cluster : Nat) :
    Except FileSystemError ClusterChain :=
  if start_cluster < 2 then
    .error (.ClusterChainError ("Invalid cluster number (must be >= 2)".toList))
  else
    match ClusterChain.newGo fat_table fat_table.len start_cluster [] with
    | .error e => .error e
    | .ok clusters => .ok { clusters := clusters }

/-- `ClusterChain::len`. -/
def ClusterChain.len (c : ClusterChain) : Nat := c.clusters.length

/-! ## Directory records (`src/fs/entry.rs`) -/

/-- The Rust `DirectoryEntry` record (32-byte short-name record), with
the fields the core reads. -/
structure DirectoryEntry where
  name : List Nat
  attributes : Nat
  first_cluster_high : Nat
  first_cluster_low : Nat
  file_size_field : Nat
deriving DecidableEq

/-- Raw field extraction of a `DirectoryEntry` from a 32-byte slot (the
`core::ptr::read` reinterpretation, made explicit field by field): name
bytes 0..11, attributes at 11, first-cluster high half at 20..22, low
half at 26..28, file size at 28..32. -/
def DirectoryEntry.decode (data : List Nat) : DirectoryEntry :=
  { name := data.take 11
    attributes := data.getD 11 0
    first_cluster_high := le16 data 20
    first_cluster_low := le16 data 26
    file_size_field := le32 data 28 }

/-- `DirectoryEntry::from_bytes`: requires at least 32 bytes and rejects
the free (0x00) and deleted (0xE5) sentinels in the first name byte. -/
def DirectoryEntry.from_bytes (data : List Nat) : Except FileSystemError DirectoryEntry :=
  if data.length < 32 then
    .error (.DirectoryEntryError ("Directory entry must be at least 32 bytes".toList))
  else
    let entry := DirectoryEntry.decode data
    if entry.name.getD 0 0 = 0x00 ∨ entry.name.getD 0 0 = 0xE5 then
      .error (.DirectoryEntryError ("Empty or deleted entry".toList))
    else
      .ok entry

/-- `DirectoryEntry::is_directory`: attribute bit 0x10. -/
def DirectoryEntry.is_directory (e : DirectoryEntry) : Bool :=
  e.attributes &&& 0x10 ≠ 0

/-- `DirectoryEntry::is_volume_label`: attribute bit 0x08. -/
def DirectoryEntry.is_volume_label (e : DirectoryEntry) : Bool :=
  e.attributes &&& 0x08 ≠ 0

/-- `DirectoryEntry::is_file`: neither a directory nor a volume label. -/
def DirectoryEntry.is_file (e : DirectoryEntry) : Bool :=
  ¬ e.is_directory ∧ e.attributes &&& 0x08 = 0

/-- `DirectoryEntry::first_cluster`: `(high << 16) | low`. -/
def DirectoryEntry.first_cluster (e : DirectoryEntry) : Nat :=
  e.first_cluster_high * 65536 + e.first_cluster_low

/-- `DirectoryEntry::file_size`. -/
def DirectoryEntry.file_size (e : DirectoryEntry) : Nat := e.file_size_field

/-- `DirectoryEntry::short_name`: name part = bytes 0..8 up to the first
space, extension part = the non-space bytes among 8..11; both must be
valid UTF-8; a non-empty extension is appended after a dot. -/
def DirectoryEntry.short_name (e : DirectoryEntry) : Except FileSystemError (List Char) :=
  let name_bytes := (e.name.take 8).takeWhile (fun b => b ≠ 0x20)
  let ext_bytes := ((e.name.drop 8).take 3).filter (fun b => b ≠ 0x20)
  match utf8Decode? name_bytes with
  | none => .error (.DirectoryEntryError ("Invalid UTF-8 in name".toList))
  | some name_str =>
    if ext_bytes = [] then .ok name_str
    else
      match utf8Decode? ext_bytes with
      | none => .error (.DirectoryEntryError ("Invalid UTF-8 in extension".toList))
      | some ext_str => .ok (name_str ++ ['.'] ++ ext_str)

/-- The Rust `LongFileNameEntry` record (32-byte long-name fragment). -/
structure LongFileNameEntry where
  sequence : Nat
  name1 : List Nat
  attributes : Nat
  type_field : Nat
  checksum : Nat
  name2 : List Nat
  first_cluster_field : Nat
  name3 : List Nat
deriving DecidableEq

/-- Raw field extraction of a `LongFileNameEntry` from a 32-byte slot:
sequence byte at 0, five UTF-16 units at 1..11, attributes at 11, type at
12, checksum at 13, six units at 14..26, first cluster at 26..28, two
units at 28..32. -/
def LongFileNameEntry.from_chunk (c : List Nat) : LongFileNameEntry :=
  { sequence := c.getD 0 0
    name1 := [le16 c 1, le16 c 3, le16 c 5, le16 c 7, le16 c 9]
    attributes := c.getD 11 0
    type_field := c.getD 12 0
    checksum := c.getD 13 0
    name2 := [le16 c 14, le16 c 16, le16 c 18, le16 c 20, le16 c 22, le16 c 24]
    first_cluster_field := le16 c 26
    name3 := [le16 c 28, le16 c 30] }

/-- `LongFileNameEntry::is_valid`: attribute 0x0F, type 0, first cluster 0. -/
def LongFileNameEntry.is_valid (l : LongFileNameEntry) : Bool :=
  l.attributes = 0x0F ∧ l.type_field = 0 ∧ l.first_cluster_field = 0

/-- `LongFileNameEntry::sequence_number`: low 6 bits. -/
def LongFileNameEntry.sequence_number (l : LongFileNameEntry) : Nat :=
  l.sequence &&& 0x3F

/-- `LongFileNameEntry::is_last`: bit 0x40. -/
def LongFileNameEntry.is_last (l : LongFileNameEntry) : Bool :=
  l.sequence &&& 0x40 ≠ 0

/-- `LongFileNameEntry::name_chars`: the 13 UTF-16 units in order. -/
def LongFileNameEntry.name_chars (l : LongFileNameEntry) : List Nat :=
  l.name1 ++ l.name2 ++ l.name3

/-- `DirEntry`: a short-name record plus an optional long name. -/
structure DirEntry where
  entry : DirectoryEntry
  long_name : Option (List Char)
deriving DecidableEq

/-- `DirEntry::new`. -/
def DirEntry.new (entry : DirectoryEntry) : DirEntry :=
  { entry := entry, long_name := none }

/-- `DirEntry::with_long_name`. -/
def DirEntry.with_long_name (d : DirEntry) (l : List Char) : DirEntry :=
  { d with long_name := some l }

/-- `DirEntry::name`: the long name when present, the formatted short
name otherwise. -/
def DirEntry.display_name (d : DirEntry) : Except FileSystemError (List Char) :=
  match d.long_name with
  | some l => .ok l
  | none => d.entry.short_name

/-- `DirEntry::is_directory`. -/
def DirEntry.is_directory (d : DirEntry) : Bool := d.entry.is_directory

/-- `DirEntry::is_file`. -/
def DirEntry.is_file (d : DirEntry) : Bool := d.entry.is_file

/-- `DirEntry::first_cluster`. -/
def DirEntry.first_cluster (d : DirEntry) : Nat := d.entry.first_cluster

/-- `DirEntry::file_size`. -/
def DirEntry.file_size (d : DirEntry) : Nat := d.entry.file_size

/-! ## Directory scanning (`src/fs/directory.rs`) -/

/-- Stable insertion used to model `Vec::sort_by(|a, b| b.0.cmp(&a.0))`:
the element goes after every element with a greater-or-equal sequence
number and before the first strictly smaller one.  Folding this insertion
over the list from the left computes exactly the stable descending sort
that the Rust standard-library sort produces. -/
def insertDescBySeq (x : Nat × List Nat) :
    List (Nat × List Nat) → List (Nat × List Nat)
  | [] => [x]
  | y :: ys => if x.1 ≤ y.1 then y :: insertDescBySeq x ys else x :: y :: ys

/-- Stable sort by strictly descending sequence number (see
`insertDescBySeq`). -/
def sortDescBySeq (l : List (Nat × List Nat)) : List (Nat × List Nat) :=
  l.foldl (fun acc x => insertDescBySeq x acc) []

/-- The characters one accumulated fragment contributes to a long name:
its UTF-16 units up to the first 0x0000 or 0xFFFF terminator, keeping
only units below 0x80 (the source drops all other units). -/
def fragChars (p : Nat × List Nat) : List Char :=
  ((p.2.takeWhile (fun ch => ch ≠ 0 ∧ ch ≠ 0xFFFF)).filter (fun ch => ch < 0x80)).map
    Char.ofNat

/-- The long name built from the accumulated fragments, in accumulator
order. -/
def buildLongName (parts : List (Nat × List Nat)) : List Char :=
  (parts.map fragChars).flatten

/-- The scan loop of `Directory::read_entries` over the 32-byte slots,
threading the pending long-name fragment accumulator:
byte 0 = 0x00 stops the scan; byte 0 = 0xE5 discards the slot and the
accumulator; attribute byte 0x0F is a long-name fragment, accumulated
when valid (and the accumulator is sorted by descending sequence number
when the fragment carries the last flag), discarded otherwise; any other
slot is decoded as a short-name record: a decode failure or a volume
label clears the accumulator, and otherwise the entry is emitted, with
the pending long name attached when it is non-empty. -/
def readEntriesGo : List (List Nat) → List (Nat × List Nat) → List DirEntry
  | [], _ => []
  | chunk :: rest, lfn_parts =>
    if chunk.getD 0 0 = 0x00 then []
    else if chunk.getD 0 0 = 0xE5 then readEntriesGo rest []
    else if chunk.getD 11 0 = 0x0F then
      let lfn := LongFileNameEntry.from_chunk chunk
      if lfn.is_valid then
        let parts := lfn_parts ++ [(lfn.sequence_number, lfn.name_chars)]
        if lfn.is_last then readEntriesGo rest (sortDescBySeq parts)
        else readEntriesGo rest parts
      else readEntriesGo rest lfn_parts
    else
      match DirectoryEntry.from_bytes chunk with
      | .error _ => readEntriesGo rest []
      | .ok entry =>
        if entry.is_volume_label then readEntriesGo rest []
        else
          let base := DirEntry.new entry
          let dir_entry :=
            if lfn_parts ≠ [] ∧ buildLongName lfn_parts ≠ [] then
              base.with_long_name (buildLongName lfn_parts)
            else base
          dir_entry :: readEntriesGo rest []

/-- `Directory::read_entries` (the cluster-chain argument is unused in
the source; the scan never fails). -/
def Directory.read_entries (_cluster_chain : ClusterChain) (data : List Nat) :
    Except FileSystemError (List DirEntry) :=
  .ok (readEntriesGo (chunksExact 32 data) [])

/-- The scan loop of `Directory::find_entry`: stop at the 0x00 end
marker, skip deleted slots, and return the first slot that decodes and
whose formatted short name equals the requested name (exactly or ASCII
case-insensitively); slots that fail to decode or format are skipped. -/
def findEntryGo (name : List Char) : List (List Nat) → Option DirectoryEntry
  | [] => none
  | chunk :: rest =>
    if chunk.getD 0 0 = 0x00 then none
    else if chunk.getD 0 0 = 0xE5 then findEntryGo name rest
    else
      match DirectoryEntry.from_bytes chunk with
      | .ok entry =>
        match entry.short_name with
        | .ok entry_name =>
          if entry_name = name ∨ eqIgnoreAsciiCase entry_name name then some entry
          else findEntryGo name rest
        | .error _ => findEntryGo name rest
      | .error _ => findEntryGo name rest

/-- `Directory::find_entry` (absence is `none`, not an error). -/
def Directory.find_entry (data : List Nat) (name : List Char) :
    Except FileSystemError (Option DirectoryEntry) :=
  .ok (findEntryGo name (chunksExact 32 data))

/-! ## Navigator (`src/fs/fat.rs`) -/

/-- `Fat32Fs`: decoded boot sector and allocation table, the mutable
current-path cursor, and the full immutable volume image. -/
structure Fat32Fs where
  boot_sector : BootSector
  fat_table : FatTable
  current_path : PathBuf
  device_data : List Nat
deriving DecidableEq

/-- `Fat32Fs::new`: decode the boot sector, locate the FAT region
(`fat_start_sector * bytes_per_sector`, spanning
`sectors_per_fat * bytes_per_sector` bytes, both `u32` products), reject
a region extending past the buffer, and decode the allocation table from
it; the current path starts at the root. -/
def Fat32Fs.new (device_data : List Nat) : Except FileSystemError Fat32Fs :=
  match BootSector.from_bytes device_data with
  | .error e => .error e
  | .ok boot_sector =>
    let fat_start := w32 (boot_sector.fat_start_sector * boot_sector.bytes_per_sector)
    let fat_size := w32 (boot_sector.sectors_per_fat * boot_sector.bytes_per_sector)
    if device_data.length < fat_start + fat_size then
      .error (.InvalidFat ("FAT table out of bounds".toList))
    else
      match FatTable.from_bytes ((device_data.drop fat_start).take fat_size) with
      | .error e => .error e
      | .ok fat_table =>
        .ok { boot_sector := boot_sector, fat_table := fat_table,
              current_path := PathBuf.root, device_data := device_data }

/-- `Fat32Fs::get_cluster_chain`. -/
def Fat32Fs.get_cluster_chain (fs : Fat32Fs) (start_cluster : Nat) :
    Except FileSystemError ClusterChain :=
  ClusterChain.new fs.fat_table start_cluster

/-- `Fat32Fs::read_cluster`: compute the byte offset of the cluster in
the data region (`u32` arithmetic; clusters are numbered from 2) and
return its `cluster_size` bytes, failing with an I/O error when the range
extends past the image. -/
def Fat32Fs.read_cluster (fs : Fat32Fs) (cluster : Nat) :
    Except FileSystemError (List Nat) :=
  let cluster_size := fs.boot_sector.cluster_size
  let data_start :=
    w32 (fs.boot_sector.data_start_sector * fs.boot_sector.bytes_per_sector)
  let cluster_offset :=
    w32 (w32 ((cluster - 2) * fs.boot_sector.sectors_per_cluster) *
      fs.boot_sector.bytes_per_sector)
  let offset := w32 (data_start + cluster_offset)
  if fs.device_data.length < offset + cluster_size then
    .error (.IoError ("Cluster out of bounds".toList))
  else
    .ok ((fs.device_data.drop offset).take cluster_size)

/-- The per-chain read loop shared by the navigator operations:
concatenate the bytes of every cluster of the chain, propagating the
first read error. -/
def Fat32Fs.read_chain_data (fs : Fat32Fs) : List Nat → Except FileSystemError (List Nat)
  | [] => .ok []
  | c :: cs =>
    match fs.read_cluster c with
    | .error e => .error e
    | .ok data =>
      match fs.read_chain_data cs with
      | .error e => .error e
      | .ok rest => .ok (data ++ rest)

/-- The per-component loop of `Fat32Fs::get_directory_cluster`: resolve
the chain of the current directory, read and concatenate its clusters,
look the component up by name, require a directory with a non-zero first
cluster, and continue there. -/
def Fat32Fs.dirClusterGo (fs : Fat32Fs) : List (List Char) → Nat →
    Except FileSystemError Nat
  | [], current_cluster => .ok current_cluster
  | component :: rest, current_cluster =>
    match fs.get_cluster_chain current_cluster with
    | .error e => .error e
    | .ok chain =>
      match fs.read_chain_data chain.clusters with
      | .error e => .error e
      | .ok directory_data =>
        match Directory.find_entry directory_data component with
        | .error e => .error e
        | .ok none =>
          .error (.DirectoryNotFound ("Directory not found: ".toList ++ component))
        | .ok (some entry) =>
          if ¬ entry.is_directory then
            .error (.DirectoryNotFound ("Not a directory: ".toList ++ component))
          else if entry.first_cluster = 0 then
            .error (.DirectoryNotFound ("Invalid directory cluster".toList))
          else
            fs.dirClusterGo rest entry.first_cluster

/-- `Fat32Fs::get_directory_cluster`: the root resolves to the root
cluster of the geometry; otherwise walk the components from the root. -/
def Fat32Fs.get_directory_cluster (fs : Fat32Fs) (path : Path) :
    Except FileSystemError Nat :=
  if path.is_root then .ok fs.boot_sector.root_cluster
  else fs.dirClusterGo path.components fs.boot_sector.root_cluster

/-- The common prologue of the `FileSystem` operations: an absolute input
is parsed directly, a relative one is parsed and joined onto the current
path; path errors convert through `From<PathError>`. -/
def Fat32Fs.target_path (fs : Fat32Fs) (path : List Char) :
    Except FileSystemError Path :=
  if path.head? = some '/' then
    match Path.new path with
    | .error e => .error (pathErrToFs e)
    | .ok p => .ok p
  else
    match Path.new path with
    | .error e => .error (pathErrToFs e)
    | .ok p =>
      match fs.current_path.as_path.join p with
      | .error e => .error (pathErrToFs e)
      | .ok joined => .ok joined

/-- `Fat32Fs::list` (`FileSystem` impl): resolve the directory cluster,
read its chain, decode all entries. -/
def Fat32Fs.list (fs : Fat32Fs) (path : List Char) :
    Except FileSystemError (List DirEntry) :=
  match fs.target_path path with
  | .error e => .error e
  | .ok tp =>
    match fs.get_directory_cluster tp with
    | .error e => .error e
    | .ok dir_cluster =>
      match fs.get_cluster_chain dir_cluster with
      | .error e => .error e
      | .ok chain =>
        match fs.read_chain_data chain.clusters with
        | .error e => .error e
        | .ok directory_data => Directory.read_entries chain directory_data

/-- `Fat32Fs::read_file` (`FileSystem` impl): resolve the parent
directory, find the final component, require a file; a zero first
cluster yields empty content, otherwise the chain bytes are concatenated
and truncated to the declared file size. -/
def Fat32Fs.read_file (fs : Fat32Fs) (path : List Char) :
    Except FileSystemError (List Nat) :=
  match fs.target_path path with
  | .error e => .error e
  | .ok target_path =>
    match target_path.file_name with
    | none => .error (.FileNotFound target_path.to_string)
    | some file_name =>
      match target_path.parent with
      | none => .error (.DirectoryNotFound ("Root directory".toList))
      | some parent_path =>
        match fs.get_directory_cluster parent_path with
        | .error e => .error e
        | .ok parent_cluster =>
          match fs.get_cluster_chain parent_cluster with
          | .error e => .error e
          | .ok chain =>
            match fs.read_chain_data chain.clusters with
            | .error e => .error e
            | .ok directory_data =>
              match Directory.find_entry directory_data file_name with
              | .error e => .error e
              | .ok none => .error (.FileNotFound target_path.to_string)
              | .ok (some entry) =>
                if ¬ entry.is_file then
                  .error (.FileNotFound
                    (target_path.to_string ++ " is not a file".toList))
                else if entry.first_cluster = 0 then .ok []
                else
                  match fs.get_cluster_chain entry.first_cluster with
                  | .error e => .error e
                  | .ok chain2 =>
                    match fs.read_chain_data chain2.clusters with
                    | .error e => .error e
                    | .ok file_data =>
                      .ok (if entry.file_size < file_data.length then
                             file_data.take entry.file_size
                           else file_data)

/-- `Fat32Fs::cd` (`FileSystem` impl), with the `&mut self` state made
explicit: the result pairs the `Result<(), _>` with the navigator state
after the call.  The target is resolved; the root is adopted directly;
otherwise the directory is verified to exist (cluster resolution, chain
read, parent lookup by name, directory check) before `current_path` is
replaced.  Every early return leaves the state untouched. -/
def Fat32Fs.cd (fs : Fat32Fs) (path : List Char) :
    Except FileSystemError Unit × Fat32Fs :=
  match fs.target_path path with
  | .error e => (.error e, fs)
  | .ok target_path =>
    if target_path.is_root then
      (.ok (), { fs with current_path := PathBuf.from target_path })
    else
      match fs.get_directory_cluster target_path with
      | .error e => (.error e, fs)
      | .ok dir_cluster =>
        match fs.get_cluster_chain dir_cluster with
        | .error e => (.error e, fs)
        | .ok chain =>
          match fs.read_chain_data chain.clusters with
          | .error e => (.error e, fs)
          | .ok _directory_data =>
            match target_path.file_name with
            | none => (.error (.DirectoryNotFound target_path.to_string), fs)
            | some dir_name =>
              match target_path.parent with
              | none => (.error (.DirectoryNotFound ("Root directory".toList)), fs)
              | some parent_path =>
                match fs.get_directory_cluster parent_path with
                | .error e => (.error e, fs)
                | .ok parent_cluster =>
                  match fs.get_cluster_chain parent_cluster with
                  | .error e => (.error e, fs)
                  | .ok parent_chain =>
                    match fs.read_chain_data parent_chain.clusters with
                    | .error e => (.error e, fs)
                    | .ok parent_data =>
                      match Directory.find_entry parent_data dir_name with
                      | .error e => (.error e, fs)
                      | .ok none =>
                        (.error (.DirectoryNotFound target_path.to_string), fs)
                      | .ok (some entry) =>
                        if ¬ entry.is_directory then
                          (.error (.DirectoryNotFound
                            (target_path.to_string ++ " is not a directory".toList)), fs)
                        else
                          (.ok (), { fs with current_path := PathBuf.from target_path })

/-- `Fat32Fs::pwd` (`FileSystem` impl). -/
def Fat32Fs.pwd (fs : Fat32Fs) : List Char := fs.current_path.to_string

/-- `Fat32Fs::create_file` (`FileSystem` impl): validates the path, then
always fails with `Unsupported`. -/
def Fat32Fs.create_file (fs : Fat32Fs) (path : List Char) :
    Except FileSystemError Unit × Fat32Fs :=
  match fs.target_path path with
  | .error e => (.error e, fs)
  | .ok _target_path =>
    (.error (.Unsupported
      ("File creation requires FAT modification which is not yet implemented".toList)), fs)

/-- `Fat32Fs::write_file` (`FileSystem` impl): validates the path, then
always fails with `Unsupported`. -/
def Fat32Fs.write_file (fs : Fat32Fs) (path : List Char) (_data : List Nat) :
    Except FileSystemError Unit × Fat32Fs :=
  match fs.target_path path with
  | .error e => (.error e, fs)
  | .ok _target_path =>
    (.error (.Unsupported
      ("File writing requires FAT and cluster modification which is not yet implemented".toList)), fs)

/-! ## Lemmas about splitting and joining path strings -/

/-- `splitOnChar` never returns an empty list of segments. -/
theorem splitOnChar_ne_nil (sep : Char) (l : List Char) : splitOnChar sep l ≠ [] := by
  cases l with
  | nil => simp [splitOnChar]
  | cons c rest =>
    simp only [splitOnChar]
    cases h : splitOnChar sep rest with
    | nil => simp
    | cons seg segs =>
      by_cases hc : c = sep <;> simp [hc]

/-- Splitting a separator-free string yields that single segment. -/
theorem splitOnChar_of_not_mem {sep : Char} {l : List Char} (h : sep ∉ l) :
    splitOnChar sep l = [l] := by
  induction l with
  | nil => simp [splitOnChar]
  | cons c rest ih =>
    simp only [List.mem_cons, not_or] at h
    simp only [splitOnChar, ih h.2]
    have hc : ¬ c = sep := fun hcs => h.1 hcs.symm
    simp [hc]

/-- Splitting past a separator-free prefix peels off that prefix. -/
theorem splitOnChar_append {sep : Char} {c : List Char} (t : List Char) (h : sep ∉ c) :
    splitOnChar sep (c ++ sep :: t) = c :: splitOnChar sep t := by
  induction c with
  | nil =>
    simp only [List.nil_append, splitOnChar]
    cases hs : splitOnChar sep t with
    | nil => exact absurd hs (splitOnChar_ne_nil sep t)
    | cons seg segs => simp
  | cons ch c' ih =>
    simp only [List.mem_cons, not_or] at h
    simp only [List.cons_append, splitOnChar, List.append_eq]
    rw [ih h.2]
    have hc : ¬ ch = sep := fun hcs => h.1 hcs.symm
    simp [hc]

/-- Splitting inverts `joinComps` when every component is
separator-free. -/
theorem splitOnChar_joinComps :
    ∀ comps : List (List Char), comps ≠ [] → (∀ c ∈ comps, '/' ∉ c) →
      splitOnChar '/' (joinComps comps) = comps
  | [], h, _ => absurd rfl h
  | [c], _, hall => by
    simp only [joinComps]
    exact splitOnChar_of_not_mem (hall c (by simp))
  | c :: c2 :: cs, _, hall => by
    have hrest : splitOnChar '/' (joinComps (c2 :: cs)) = c2 :: cs :=
      splitOnChar_joinComps (c2 :: cs) (by simp)
        (fun x hx => hall x (List.mem_cons_of_mem c hx))
    simp only [joinComps]
    rw [splitOnChar_append _ (hall c (by simp)), hrest]

/-- The final verification loop accepts a component list whose members
are all non-empty and at most 255 bytes long. -/
theorem pathCheckComponents_ok {comps : List (List Char)}
    (h : ∀ c ∈ comps, c ≠ [] ∧ utf8Len c ≤ 255) :
    pathCheckComponents comps = .ok () := by
  induction comps with
  | nil => rfl
  | cons c rest ih =>
    have hc := h c (by simp)
    simp only [pathCheckComponents, if_neg hc.1, if_neg (by omega : ¬ utf8Len c > 255)]
    exact ih fun x hx => h x (List.mem_cons_of_mem c hx)

/-- A mapped segment is either empty or at most 255 bytes long. -/
theorem pathMapSegment_short (s : List Char) :
    pathMapSegment s = [] ∨ utf8Len (pathMapSegment s) ≤ 255 := by
  unfold pathMapSegment
  by_cases hdd : s = ['.', '.']
  · right
    simp only [hdd, if_pos rfl]
    decide
  · by_cases hlong : utf8Len s > 255
    · left
      simp [hdd, hlong]
    · right
      simp only [if_neg hdd, if_neg hlong]
      omega

/-- The final verification loop never reports `ComponentTooLong` on the
output of the component-collection stage: an over-long segment has
already been replaced by the empty string, which the emptiness check
catches first, and every other collected component is at most 255
bytes. -/
theorem pathCheckComponents_ne_tooLong (rest : List Char) :
    pathCheckComponents (pathComponents rest) ≠ .error .ComponentTooLong := by
  unfold pathComponents
  by_cases hr : rest = []
  · simp [hr, pathCheckComponents]
  · rw [if_neg hr]
    generalize (splitOnChar '/' rest).filter (fun s => s ≠ [] ∧ s ≠ ['.']) = segs
    induction segs with
    | nil => simp [pathCheckComponents]
    | cons s rest2 ih =>
      simp only [List.map_cons, pathCheckComponents]
      by_cases h0 : pathMapSegment s = []
      · simp [h0]
      · have hle : ¬ utf8Len (pathMapSegment s) > 255 := by
          rcases pathMapSegment_short s with h | h
          · exact absurd h h0
          · omega
        simp only [if_neg h0, if_neg hle]
        exact ih

/-- `Path::new` can never fail with `ComponentTooLong` (the dedicated
check in the source is dead code). -/
theorem pathNew_ne_componentTooLong (s : List Char) :
    Path.new s ≠ .error .ComponentTooLong := by
  unfold Path.new
  by_cases hs : s = []
  · simp [hs]
  · simp only [if_neg hs]
    cases hc : pathCheckComponents
        (pathComponents (if decide (s.head? = some '/') = true then s.tail else s)) with
    | ok u => simp
    | error e =>
      have hne : e ≠ .ComponentTooLong := by
        intro he
        exact pathCheckComponents_ne_tooLong _ (he ▸ hc)
      simp [hne]

set_option maxRecDepth 8192 in
/-- C3: the claim says parsing fails with `ComponentTooLong` whenever a
retained component exceeds 255 characters.  The error variant and its
length check exist in the source, but the mapping stage has already
replaced any over-long segment by the empty string, so the emptiness
check fires first: on a 256-character component the parser actually
fails with `InvalidFormat "Empty component"` (see
`pathNew_ne_componentTooLong` for the general unreachability of
`ComponentTooLong`).  This theorem evaluates the parser at the failing
input. -/
theorem c3_component_too_long_failing_input :
    Path.new ('/' :: List.replicate 256 'a') =
      .error (.InvalidFormat ("Empty component".toList)) := by decide

/-- `joinComps` of a list of non-empty components is non-empty. -/
theorem joinComps_ne_nil :
    ∀ comps : List (List Char), comps ≠ [] → (∀ c ∈ comps, c ≠ []) →
      joinComps comps ≠ []
  | [], h, _ => absurd rfl h
  | [c], _, hall => by simpa [joinComps] using hall c (by simp)
  | c :: c2 :: cs, _, hall => by
    have hc : c ≠ [] := hall c (by simp)
    cases c with
    | nil => exact absurd rfl hc
    | cons ch c' => simp [joinComps]

/-- `pathMapSegment` is the identity on components that are not `..` and
not over-long. -/
theorem pathMapSegment_id {c : List Char} (hdd : c ≠ ['.', '.'])
    (hl : utf8Len c ≤ 255) : pathMapSegment c = c := by
  unfold pathMapSegment
  rw [if_neg hdd, if_neg (by omega)]

set_option maxRecDepth 8192 in
/-- C9 counterexample: the claim quantifies over every absolute path
string without `.`/`..` segments and without empty or doubled
separators.  The string consisting of a separator followed by 256 `b`
characters is such a string, but parsing it fails (the over-long
component is replaced by an empty string and reported as
`InvalidFormat`), so `parse(s).to_string() == s` cannot hold for it. -/
theorem c9_roundtrip_counterexample :
    Path.new ('/' :: List.replicate 256 'b') =
      .error (.InvalidFormat ("Empty component".toList)) := by decide

/-- `pathMapSegment` maps identically over a list of components that are
not `..` and not over-long. -/
theorem pathMap_id {comps : List (List Char)}
    (h : ∀ c ∈ comps, c ≠ ['.', '.'] ∧ utf8Len c ≤ 255) :
    comps.map pathMapSegment = comps := by
  induction comps with
  | nil => rfl
  | cons x xs ih =>
    have hx := h x (by simp)
    simp only [List.map_cons, pathMapSegment_id hx.1 hx.2]
    rw [ih (fun c hcm => h c (List.mem_cons_of_mem x hcm))]

/-- C9 (amended): for every already-normalized absolute path string —
no `.` or `..` segments, no empty or doubled separators, and (the
amendment) every component at most 255 bytes — parsing succeeds with
exactly those components and serializing the result returns the original
string.  Normalized strings are presented as `'/' :: joinComps comps`
with every component non-empty and separator-free, which is precisely
the class of strings the claim describes. -/
theorem c9_normalized_roundtrip (comps : List (List Char))
    (h : ∀ c ∈ comps, c ≠ [] ∧ '/' ∉ c ∧ c ≠ ['.'] ∧ c ≠ ['.', '.'] ∧ utf8Len c ≤ 255) :
    Path.new ('/' :: joinComps comps) = .ok { components := comps, absolute := true } ∧
      Path.to_string { components := comps, absolute := true } =
        '/' :: joinComps comps := by
  have hcomps : pathComponents (joinComps comps) = comps := by
    cases hc : comps with
    | nil => simp [hc, joinComps, pathComponents]
    | cons c0 cs0 =>
      rw [← hc]
      have hne : comps ≠ [] := by simp [hc]
      have hjoin : joinComps comps ≠ [] :=
        joinComps_ne_nil comps hne (fun c hcm => (h c hcm).1)
      unfold pathComponents
      rw [if_neg hjoin,
        splitOnChar_joinComps comps hne (fun c hcm => (h c hcm).2.1)]
      have hfilter : comps.filter (fun s => s ≠ [] ∧ s ≠ ['.']) = comps := by
        rw [List.filter_eq_self]
        intro a ha
        have := h a ha
        simp [this.1, this.2.2.1]
      rw [hfilter]
      exact pathMap_id (fun c hcm => ⟨(h c hcm).2.2.2.1, (h c hcm).2.2.2.2⟩)
  constructor
  · have hok : pathCheckComponents comps = .ok () :=
      pathCheckComponents_ok (fun c hcm => ⟨(h c hcm).1, (h c hcm).2.2.2.2⟩)
    unfold Path.new
    simp [hcomps, hok]
  · simp [Path.to_string]

/-- Witness for `c9_normalized_roundtrip` at the concrete normalized
string `/usr/bin`. -/
theorem c9_normalized_roundtrip_witness :
    Path.new ('/' :: joinComps [['u', 's', 'r'], ['b', 'i', 'n']]) =
        .ok { components := [['u', 's', 'r'], ['b', 'i', 'n']], absolute := true } ∧
      Path.to_string { components := [['u', 's', 'r'], ['b', 'i', 'n']], absolute := true } =
        '/' :: joinComps [['u', 's', 'r'], ['b', 'i', 'n']] :=
  c9_normalized_roundtrip [['u', 's', 'r'], ['b', 'i', 'n']] (by decide)

/-! ## Cluster-chain resolution: termination and invariants (C1, C8) -/

/-- One continuing link of the allocation table: the entry of `c`, when
it is in range and is a forward link (at least 2, below the end-of-chain
range, not the bad-cluster marker). -/
def contLink (entries : List Nat) (c : Nat) : Option Nat :=
  match entries[c]? with
  | none => none
  | some v =>
    if 2 ≤ v ∧ v < 0x0FFFFFF8 ∧ v ≠ 0x0FFFFFF7 then some v else none

/-- The walk of continuing links from `start`, `k` steps long; `none`
once the walk leaves the table or meets a non-continuing entry. -/
def fatWalk (entries : List Nat) (start : Nat) : Nat → Option Nat
  | 0 => some start
  | k + 1 => (fatWalk entries start k).bind (contLink entries)

/-- A cycle of allocation-table links is reachable from `start`: the
walk of continuing links visits the same cluster at two different
times. -/
def cycleReachable (entries : List Nat) (start : Nat) : Prop :=
  ∃ i j c, i < j ∧ fatWalk entries start i = some c ∧ fatWalk entries start j = some c

/-- Walk composition: walking `a + b` steps is walking `a` steps and
then `b` more from wherever that arrived. -/
theorem fatWalk_add (entries : List Nat) (s : Nat) (a b : Nat) :
    fatWalk entries s (a + b) =
      match fatWalk entries s a with
      | none => none
      | some c => fatWalk entries c b := by
  induction b with
  | zero =>
    cases h : fatWalk entries s a <;> simp [fatWalk, h]
  | succ b ih =>
    have : a + (b + 1) = (a + b) + 1 := by omega
    rw [this]
    show (fatWalk entries s (a + b)).bind (contLink entries) = _
    rw [ih]
    cases h : fatWalk entries s a with
    | none => simp
    | some c => simp [fatWalk]

/-- A walk alive at time `m` was alive at every earlier time. -/
theorem fatWalk_alive_mono {entries : List Nat} {s : Nat} {m : Nat}
    (h : fatWalk entries s m ≠ none) {k : Nat} (hk : k ≤ m) :
    fatWalk entries s k ≠ none := by
  intro hnone
  apply h
  have : m = k + (m - k) := by omega
  rw [this, fatWalk_add, hnone]

/-- If the walk returns to its start in `p > 0` steps, it is alive at
every time. -/
theorem fatWalk_cycle_alive {entries : List Nat} {c : Nat} {p : Nat}
    (hp : 0 < p) (hcyc : fatWalk entries c p = some c) (k : Nat) :
    fatWalk entries c k ≠ none := by
  induction k using Nat.strong_induction_on with
  | _ k ih =>
    by_cases hk : k ≤ p
    · exact fatWalk_alive_mono (by simp [hcyc]) hk
    · have : k = p + (k - p) := by omega
      rw [this, fatWalk_add, hcyc]
      exact ih (k - p) (by omega)

/-- A reachable cycle keeps the walk alive at every time. -/
theorem cycleReachable_alive {entries : List Nat} {s : Nat}
    (h : cycleReachable entries s) (n : Nat) : fatWalk entries s n ≠ none := by
  obtain ⟨i, j, c, hij, hi, hj⟩ := h
  have hcyc : fatWalk entries c (j - i) = some c := by
    have : j = i + (j - i) := by omega
    rw [this, fatWalk_add, hi] at hj
    exact hj
  by_cases hn : n ≤ i
  · exact fatWalk_alive_mono (by simp [hi]) hn
  · have : n = i + (n - i) := by omega
    rw [this, fatWalk_add, hi]
    exact fatWalk_cycle_alive (by omega) hcyc (n - i)

/-- Specification of a successful traversal loop run: the result extends
the accumulator with the current cluster followed by a tail of visited
links, its added part is no longer than the fuel, and every added link
after the first is a cluster at least 2 that is not the bad-cluster
marker. -/
theorem newGo_ok_spec (t : FatTable) :
    ∀ (fuel c : Nat) (acc r : List Nat),
      ClusterChain.newGo t fuel c acc = .ok r →
      ∃ tl, r = acc ++ c :: tl ∧ (c :: tl).length ≤ fuel ∧
        ∀ x ∈ tl, 2 ≤ x ∧ x ≠ 0x0FFFFFF7
  | 0, c, acc, r, h => by simp [ClusterChain.newGo] at h
  | fuel + 1, c, acc, r, h => by
    simp only [ClusterChain.newGo] at h
    cases hge : t.get_entry c with
    | error e =>
      simp only [hge] at h
      exact absurd h (by simp)
    | ok next =>
      simp only [hge] at h
      by_cases heoc : 0x0FFFFFF8 ≤ next
      · rw [if_pos heoc] at h
        injection h with h
        exact ⟨[], by simp [h.symm], by simp, by simp⟩
      · rw [if_neg heoc] at h
        by_cases hbad : next = 0x0FFFFFF7
        · rw [if_pos hbad] at h; exact absurd h (by simp)
        · rw [if_neg hbad] at h
          by_cases hlow : next < 2
          · rw [if_pos hlow] at h; exact absurd h (by simp)
          · rw [if_neg hlow] at h
            obtain ⟨tl, hr, hlen, hprops⟩ := newGo_ok_spec t fuel next (acc ++ [c]) r h
            refine ⟨next :: tl, by simpa using hr, by simpa using hlen, ?_⟩
            intro x hx
            rcases List.mem_cons.mp hx with hx | hx
            · exact hx ▸ ⟨by omega, hbad⟩
            · exact hprops x hx

/-- When every walk step from the current cluster stays alive, the
traversal loop exhausts its fuel and fails with the circularity error. -/
theorem newGo_alive_error (t : FatTable) :
    ∀ (fuel c : Nat) (acc : List Nat),
      (∀ k, fatWalk t.entries c k ≠ none) →
      ClusterChain.newGo t fuel c acc =
        .error (.ClusterChainError ("Cluster chain too long or circular".toList))
  | 0, c, acc, _ => by simp [ClusterChain.newGo]
  | fuel + 1, c, acc, halive => by
    have h1 := halive 1
    have hcont : ∃ v, contLink t.entries c = some v := by
      cases hc : contLink t.entries c with
      | none => exact absurd (by simp [fatWalk, hc]) h1
      | some v => exact ⟨v, rfl⟩
    obtain ⟨v, hv⟩ := hcont
    have hvprops : t.entries[c]? = some v ∧ 2 ≤ v ∧ v < 0x0FFFFFF8 ∧ v ≠ 0x0FFFFFF7 := by
      unfold contLink at hv
      cases hev : t.entries[c]? with
      | none =>
        simp only [hev] at hv
        exact absurd hv (by simp)
      | some w =>
        simp only [hev] at hv
        by_cases hw : 2 ≤ w ∧ w < 0x0FFFFFF8 ∧ w ≠ 0x0FFFFFF7
        · rw [if_pos hw] at hv
          injection hv with hv
          subst hv
          exact ⟨rfl, hw⟩
        · rw [if_neg hw] at hv
          exact absurd hv (by simp)
    have hge : t.get_entry c = .ok v := by
      unfold FatTable.get_entry
      have hlt : c < t.entries.length := by
        by_contra hge
        have : t.entries[c]? = none := List.getElem?_eq_none (by omega)
        rw [this] at hvprops
        exact absurd hvprops.1 (by simp)
      rw [if_neg (by omega)]
      have : t.entries[c]? = some (t.entries.getD c 0) := by
        rw [List.getD_eq_getElem?_getD, List.getElem?_eq_getElem hlt]
        simp
      rw [this] at hvprops
      injection hvprops.1 with h
      rw [h]
    have halive2 : ∀ k, fatWalk t.entries v k ≠ none := by
      intro k
      have := halive (1 + k)
      rw [fatWalk_add] at this
      have h1 : fatWalk t.entries c 1 = some v := by simp [fatWalk, hv]
      rw [h1] at this
      exact this
    simp only [ClusterChain.newGo, hge]
    rw [if_neg (by omega), if_neg hvprops.2.2.2, if_neg (by omega)]
    exact newGo_alive_error t fuel v (acc ++ [c]) halive2

/-- C1: for every allocation table and every start cluster at least 2,
chain resolution observes the hard iteration cap — a successful chain is
never longer than the table — and on any table with a cycle of links
reachable from the start cluster it returns the circularity
cluster-chain error instead of diverging (the embedding of the loop is
total by construction, fuelled by exactly the cap of the source). -/
theorem c1_resolution_terminates (t : FatTable) (s : Nat) (hs : 2 ≤ s) :
    (∀ chain, ClusterChain.new t s = .ok chain → chain.clusters.length ≤ t.len) ∧
    (cycleReachable t.entries s →
      ClusterChain.new t s =
        .error (.ClusterChainError ("Cluster chain too long or circular".toList))) := by
  constructor
  · intro chain h
    unfold ClusterChain.new at h
    rw [if_neg (by omega)] at h
    cases hgo : ClusterChain.newGo t t.len s [] with
    | error e =>
      simp only [hgo] at h
      exact absurd h (by simp)
    | ok clusters =>
      simp only [hgo] at h
      obtain ⟨tl, hr, hlen, _⟩ := newGo_ok_spec t t.len s [] clusters hgo
      injection h with h
      rw [← h]
      simpa [hr] using hlen
  · intro hcyc
    unfold ClusterChain.new
    rw [if_neg (by omega)]
    rw [newGo_alive_error t t.len s [] (cycleReachable_alive hcyc)]

/-- Witness for `c1_resolution_terminates`: the table `2 -> 3 -> 2` has a
cycle reachable from start cluster 2, and resolution reports the
circularity error on it. -/
theorem c1_resolution_terminates_witness :
    ClusterChain.new ⟨[0, 0, 3, 2]⟩ 2 =
      .error (.ClusterChainError ("Cluster chain too long or circular".toList)) :=
  (c1_resolution_terminates ⟨[0, 0, 3, 2]⟩ 2 (by decide)).2
    ⟨0, 2, 2, by decide, by decide, by decide⟩

/-- The huge end-of-chain table used by the C8 counterexample has an
in-range entry for the bad-cluster marker. -/
theorem badStartTable_len :
    (FatTable.mk (List.replicate 0x0FFFFFF8 0x0FFFFFF8)).entries.length = 0x0FFFFFF8 := by
  show (List.replicate 0x0FFFFFF8 0x0FFFFFF8).length = 0x0FFFFFF8
  rw [List.length_replicate]

/-- Looking up the bad-cluster marker in the huge end-of-chain table
succeeds and returns an end-of-chain marker. -/
theorem badStartTable_get :
    (FatTable.mk (List.replicate 0x0FFFFFF8 0x0FFFFFF8)).get_entry 0x0FFFFFF7 =
      .ok 0x0FFFFFF8 := by
  unfold FatTable.get_entry
  rw [if_neg (by rw [badStartTable_len]; norm_num), List.getD_eq_getElem?_getD,
    List.getElem?_replicate, if_pos (by norm_num)]
  rfl

/-- The traversal loop on the huge end-of-chain table stops at once with
the one-element chain holding the bad-cluster marker. -/
theorem badStartTable_go :
    ClusterChain.newGo ⟨List.replicate 0x0FFFFFF8 0x0FFFFFF8⟩ (0x0FFFFFF7 + 1)
      0x0FFFFFF7 [] = .ok [0x0FFFFFF7] := by
  rw [ClusterChain.newGo]
  rw [badStartTable_get]
  rfl

/-- The table length as `FatTable.len`. -/
theorem badStartTable_fatLen :
    (FatTable.mk (List.replicate 0x0FFFFFF8 0x0FFFFFF8)).len = 0x0FFFFFF7 + 1 := by
  show (FatTable.mk (List.replicate 0x0FFFFFF8 0x0FFFFFF8)).entries.length = _
  rw [badStartTable_len]

/-- C8 counterexample: the bad-cluster marker itself can appear in a
successfully returned chain, as its start.  A start cluster equal to
0x0FFFFFF7 passes the `>= 2` check, and on a table long enough to
contain an entry for it whose value is an end-of-chain marker, the
resolver returns the one-element chain `[0x0FFFFFF7]` — the claimed
invariant that no cluster of a returned chain equals the bad-cluster
marker fails (the source only checks `next` values, never the start). -/
theorem c8_bad_start_counterexample :
    ClusterChain.new ⟨List.replicate 0x0FFFFFF8 0x0FFFFFF8⟩ 0x0FFFFFF7 =
        .ok ⟨[0x0FFFFFF7]⟩ ∧
      0x0FFFFFF7 ∈ (ClusterChain.mk [0x0FFFFFF7]).clusters := by
  constructor
  · unfold ClusterChain.new
    rw [if_neg (by norm_num), badStartTable_fatLen, badStartTable_go]
  · simp

/-- C8 (amended): every successful chain starts at the caller-supplied
start cluster (and a start below 2 fails with the cluster-chain error),
is no longer than the allocation table, consists of clusters at least 2,
and contains the bad-cluster marker 0x0FFFFFF7 at most as its start
cluster: every cluster after the first differs from the marker (the
amendment — the source validates `next` links but never the start
against the marker). -/
theorem c8_chain_invariants (t : FatTable) (s : Nat) :
    (s < 2 → ClusterChain.new t s =
      .error (.ClusterChainError ("Invalid cluster number (must be >= 2)".toList))) ∧
    (∀ chain, ClusterChain.new t s = .ok chain →
      chain.clusters.head? = some s ∧
      chain.clusters.length ≤ t.len ∧
      (∀ x ∈ chain.clusters, 2 ≤ x) ∧
      (∀ x ∈ chain.clusters.tail, x ≠ 0x0FFFFFF7)) := by
  constructor
  · intro hs
    unfold ClusterChain.new
    rw [if_pos hs]
  · intro chain h
    unfold ClusterChain.new at h
    by_cases hs : s < 2
    · rw [if_pos hs] at h; exact absurd h (by simp)
    · rw [if_neg hs] at h
      cases hgo : ClusterChain.newGo t t.len s [] with
      | error e =>
        simp only [hgo] at h
        exact absurd h (by simp)
      | ok clusters =>
        simp only [hgo] at h
        injection h with h
        obtain ⟨tl, hr, hlen, hprops⟩ := newGo_ok_spec t t.len s [] clusters hgo
        rw [← h]
        simp only [hr, List.nil_append]
        refine ⟨rfl, by simpa using hlen, ?_, ?_⟩
        · intro x hx
          rcases List.mem_cons.mp hx with hx | hx
          · omega
          · exact (hprops x hx).1
        · intro x hx
          exact (hprops x (by simpa using hx)).2

/-- Witness for `c8_chain_invariants`, applying it both to a start below
2 and to a successful resolution on the table `2 -> end-of-chain`. -/
theorem c8_chain_invariants_witness :
    (ClusterChain.new ⟨[0, 0, 0x0FFFFFF8]⟩ 1 =
      .error (.ClusterChainError ("Invalid cluster number (must be >= 2)".toList))) ∧
    ((ClusterChain.mk [2]).clusters.head? = some 2 ∧
      (ClusterChain.mk [2]).clusters.length ≤ (FatTable.mk [0, 0, 0x0FFFFFF8]).len ∧
      (∀ x ∈ (ClusterChain.mk [2]).clusters, 2 ≤ x) ∧
      (∀ x ∈ (ClusterChain.mk [2]).clusters.tail, x ≠ 0x0FFFFFF7)) :=
  ⟨(c8_chain_invariants ⟨[0, 0, 0x0FFFFFF8]⟩ 1).1 (by decide),
    (c8_chain_invariants ⟨[0, 0, 0x0FFFFFF8]⟩ 2).2 ⟨[2]⟩ (by decide)⟩

/-! ## A small concrete volume for witnesses

Geometry: 64 bytes per sector, 1 sector per cluster, 8 reserved sectors
(the FAT starts at byte 512, right after the boot sector), one FAT of
one sector (16 entries), data region from byte 576, root cluster 2.
The root directory (cluster 2) holds one file `FILE.TXT` of declared
size 5 starting at cluster 3, whose cluster holds `HELLO` and padding. -/

/-- Boot sector bytes of the demo volume. -/
def demoBoot : List Nat :=
  List.replicate 11 0 ++ [64, 0] ++ [1] ++ [8, 0] ++ [1] ++ List.replicate 19 0 ++
    [1, 0, 0, 0] ++ List.replicate 4 0 ++ [2, 0, 0, 0] ++ List.replicate 34 0 ++
    [70, 65, 84, 51, 50, 32, 32, 32] ++ List.replicate 420 0 ++ [0x55, 0xAA]

/-- FAT bytes of the demo volume: entries 2 and 3 are end-of-chain. -/
def demoFatBytes : List Nat :=
  List.replicate 8 0 ++ [0xF8, 0xFF, 0xFF, 0x0F] ++ [0xF8, 0xFF, 0xFF, 0x0F] ++
    List.replicate 48 0

/-- Root-directory cluster of the demo volume: one short record
`FILE    TXT`, archive attribute, first cluster 3, size 5, followed by
the end-of-directory marker. -/
def demoRootDir : List Nat :=
  [70, 73, 76, 69, 32, 32, 32, 32, 84, 88, 84] ++ [0x20] ++ List.replicate 8 0 ++
    [0, 0] ++ List.replicate 4 0 ++ [3, 0] ++ [5, 0, 0, 0] ++ List.replicate 32 0

/-- Data cluster 3 of the demo volume: `HELLO` and zero padding. -/
def demoCluster3 : List Nat := [72, 69, 76, 76, 79] ++ List.replicate 59 0

/-- The full 704-byte demo image. -/
def demoImage : List Nat := demoBoot ++ demoFatBytes ++ demoRootDir ++ demoCluster3

/-- The decoded boot sector of the demo volume. -/
def demoBootRec : BootSector :=
  ⟨64, 1, 8, 1, 1, 2, [70, 65, 84, 51, 50, 32, 32, 32], 0xAA55⟩

/-- The decoded allocation table of the demo volume. -/
def demoFatEntries : List Nat := [0, 0, 0x0FFFFFF8, 0x0FFFFFF8] ++ List.replicate 12 0

/-- The demo navigator state, as `Fat32Fs::new demoImage` constructs it. -/
def demoFs : Fat32Fs := ⟨demoBootRec, ⟨demoFatEntries⟩, PathBuf.root, demoImage⟩

/-- The decoded short-name record of `FILE.TXT` in the demo volume. -/
def demoFileEntry : DirectoryEntry :=
  ⟨[70, 73, 76, 69, 32, 32, 32, 32, 84, 88, 84], 0x20, 0, 3, 5⟩

/-- A truncated demo image that ends exactly where the data region
starts: the FAT region fits, but no cluster does. -/
def demoTruncatedImage : List Nat := demoBoot ++ demoFatBytes

/-! ## C2: `cd` leaves the state unchanged on failure -/

/-- A `cd` call either succeeds or returns the state it was given: every
early return of the source hands back `self` untouched. -/
theorem cd_ok_or_preserves (fs : Fat32Fs) (path : List Char) :
    (Fat32Fs.cd fs path).1 = .ok () ∨ (Fat32Fs.cd fs path).2 = fs := by
  unfold Fat32Fs.cd
  repeat' split
  all_goals first
    | (left; rfl)
    | (right; rfl)

/-- C2: whenever `cd` returns an error of any kind, the navigator state
— in particular its `current_path` field — is exactly what it was before
the call; only a successful call replaces it. -/
theorem c2_cd_error_preserves_state (fs : Fat32Fs) (path : List Char)
    (e : FileSystemError) (h : (Fat32Fs.cd fs path).1 = .error e) :
    (Fat32Fs.cd fs path).2 = fs := by
  rcases cd_ok_or_preserves fs path with hok | hpres
  · rw [hok] at h
    exact absurd h (by simp)
  · exact hpres

set_option maxRecDepth 100000 in
/-- Witness for `c2_cd_error_preserves_state`: on the demo volume, `cd`
with the empty path fails (invalid path) and the state is unchanged. -/
theorem c2_cd_error_preserves_state_witness : (Fat32Fs.cd demoFs []).2 = demoFs :=
  c2_cd_error_preserves_state demoFs [] (.InvalidPath ("Empty path".toList)) (by decide)

/-! ## C6: which error kinds the core produces (construction vs reads) -/

/-- Construction errors from the boot-sector decoder are always of the
invalid-boot-sector kind. -/
theorem bootSector_from_bytes_error {data : List Nat} {e : FileSystemError}
    (h : BootSector.from_bytes data = .error e) : ∃ m, e = .InvalidBootSector m := by
  unfold BootSector.from_bytes at h
  split at h
  · exact ⟨_, (by injection h with h; rw [← h])⟩
  · dsimp only at h
    split at h
    · exact ⟨_, (by injection h with h; rw [← h])⟩
    · split at h
      · exact ⟨_, (by injection h with h; rw [← h])⟩
      · exact absurd h (by simp)

/-- Errors from the allocation-table decoder are always of the
invalid-allocation-table kind. -/
theorem fatTable_from_bytes_error {data : List Nat} {e : FileSystemError}
    (h : FatTable.from_bytes data = .error e) : ∃ m, e = .InvalidFat m := by
  unfold FatTable.from_bytes at h
  split at h
  · exact ⟨_, (by injection h with h; rw [← h])⟩
  · exact absurd h (by simp)

/-- C6 (amended): every error produced by construction (`Fat32Fs::new`)
is of a kind other than I/O-error — but the navigator operations
themselves do produce an I/O-error internally when a resolved cluster
extends past the image (see `c6_internal_io_error_counterexample`), so
the I/O-error kind is not reserved to collaborator-supplied failures. -/
theorem c6_construction_never_io_error (data : List Nat) (e : FileSystemError)
    (h : Fat32Fs.new data = .error e) : e.is_io_error = false := by
  unfold Fat32Fs.new at h
  cases hbs : BootSector.from_bytes data with
  | error eb =>
    simp only [hbs] at h
    injection h with h
    obtain ⟨m, hm⟩ := bootSector_from_bytes_error hbs
    rw [← h, hm]
    rfl
  | ok bs =>
    simp only [hbs] at h
    split at h
    · injection h with h
      rw [← h]
      rfl
    · cases hft : FatTable.from_bytes
          ((data.drop (w32 (bs.fat_start_sector * bs.bytes_per_sector))).take
            (w32 (bs.sectors_per_fat * bs.bytes_per_sector))) with
      | error ef =>
        simp only [hft] at h
        injection h with h
        obtain ⟨m, hm⟩ := fatTable_from_bytes_error hft
        rw [← h, hm]
        rfl
      | ok ft =>
        simp only [hft] at h
        exact absurd h (by simp)

/-- Witness for `c6_construction_never_io_error`: the empty image fails
construction with an invalid-boot-sector error, which is not an
I/O-error. -/
theorem c6_construction_never_io_error_witness :
    (FileSystemError.InvalidBootSector
      ("Boot sector must be at least 512 bytes".toList)).is_io_error = false :=
  c6_construction_never_io_error []
    (.InvalidBootSector ("Boot sector must be at least 512 bytes".toList)) (by rfl)

set_option maxRecDepth 100000 in
/-- C6 counterexample: the claim says the I/O-error kind is reserved for
collaborator-supplied failures and never produced internally.  But
`Fat32Fs::read_cluster` produces `IoError("Cluster out of bounds")`
itself: on the truncated demo image — which passes construction, since
its FAT region fits — listing the root directory reaches the cluster
read, whose byte range extends past the image, and the public `list`
operation returns an internally produced I/O-error. -/
theorem c6_internal_io_error_counterexample :
    (Fat32Fs.new demoTruncatedImage).bind (fun fs => fs.list ['/']) =
      .error (.IoError ("Cluster out of bounds".toList)) := by decide

/-! ## C10: construction rejects a FAT region past the image end -/

/-- C10: whenever the boot sector decodes but the FAT region derived
from the decoded geometry — starting at `fat_start_sector *
bytes_per_sector` and spanning `sectors_per_fat * bytes_per_sector`
bytes, both `u32` products as the source computes them — extends past
the end of the supplied buffer, construction fails with the
invalid-allocation-table error rather than reading out of bounds. -/
theorem c10_truncated_image_rejected (data : List Nat) (bs : BootSector)
    (hbs : BootSector.from_bytes data = .ok bs)
    (hbound : data.length < w32 (bs.fat_start_sector * bs.bytes_per_sector) +
      w32 (bs.sectors_per_fat * bs.bytes_per_sector)) :
    Fat32Fs.new data = .error (.InvalidFat ("FAT table out of bounds".toList)) := by
  unfold Fat32Fs.new
  rw [hbs]
  exact if_pos hbound

set_option maxRecDepth 100000 in
/-- Witness for `c10_truncated_image_rejected`: the bare 512-byte demo
boot sector decodes, its FAT region would span bytes 512..576, and
construction rejects it. -/
theorem c10_truncated_image_rejected_witness :
    Fat32Fs.new demoBoot = .error (.InvalidFat ("FAT table out of bounds".toList)) :=
  c10_truncated_image_rejected demoBoot demoBootRec (by decide) (by decide)

/-! ## C5: characterization of `find_entry` -/

/-- The matcher `find_entry` applies to one 32-byte slot: decode it,
format its short name, and compare with the requested name exactly or
ASCII case-insensitively. -/
def findEntryMatch (name : List Char) (chunk : List Nat) : Option DirectoryEntry :=
  match DirectoryEntry.from_bytes chunk with
  | .error _ => none
  | .ok entry =>
    match entry.short_name with
    | .error _ => none
    | .ok entry_name =>
      if entry_name = name ∨ eqIgnoreAsciiCase entry_name name then some entry
      else none

/-- The first name byte a decoded record sees is the first byte of the
slot. -/
theorem decode_name_head (chunk : List Nat) :
    (DirectoryEntry.decode chunk).name.getD 0 0 = chunk.getD 0 0 := by
  show (chunk.take 11).getD 0 0 = chunk.getD 0 0
  rw [List.getD_eq_getElem?_getD, List.getD_eq_getElem?_getD, List.getElem?_take]
  simp

/-- Slots starting with the end-of-directory or deleted sentinel never
decode. -/
theorem from_bytes_sentinel {chunk : List Nat}
    (h : chunk.getD 0 0 = 0 ∨ chunk.getD 0 0 = 0xE5) :
    ∃ m, DirectoryEntry.from_bytes chunk = .error (.DirectoryEntryError m) := by
  unfold DirectoryEntry.from_bytes
  by_cases hlen : chunk.length < 32
  · rw [if_pos hlen]
    exact ⟨_, rfl⟩
  · rw [if_neg hlen]
    dsimp only
    rw [if_pos (by rw [decode_name_head]; exact h)]
    exact ⟨_, rfl⟩

/-- The scan loop of `find_entry` agrees with the declarative form:
over the slots before the first end marker, return the first slot the
matcher accepts. -/
theorem findEntryGo_eq (name : List Char) (chunks : List (List Nat)) :
    findEntryGo name chunks =
      (chunks.takeWhile (fun c => c.getD 0 0 ≠ 0)).findSome? (findEntryMatch name) := by
  induction chunks with
  | nil => rfl
  | cons chunk rest ih =>
    rw [List.takeWhile_cons]
    by_cases h0 : chunk.getD 0 0 = 0
    · rw [findEntryGo, if_pos h0,
        if_neg (by rw [decide_eq_true_eq]; exact not_not_intro h0)]
      rfl
    · rw [if_pos (decide_eq_true h0), List.findSome?_cons]
      by_cases hdel : chunk.getD 0 0 = 0xE5
      · obtain ⟨m, hm⟩ := from_bytes_sentinel (Or.inr hdel)
        rw [findEntryGo, if_neg h0, if_pos hdel, ih]
        unfold findEntryMatch
        rw [hm]
      · rw [findEntryGo, if_neg h0, if_neg hdel]
        unfold findEntryMatch
        cases hfb : DirectoryEntry.from_bytes chunk with
        | error e =>
          dsimp only
          rw [ih]
          rfl
        | ok entry =>
          dsimp only
          cases hsn : entry.short_name with
          | error e =>
            dsimp only
            rw [ih]
            rfl
          | ok entry_name =>
            dsimp only
            by_cases hmatch : entry_name = name ∨ eqIgnoreAsciiCase entry_name name
            · rw [if_pos hmatch, if_pos hmatch]
            · rw [if_neg hmatch, if_neg hmatch, ih]
              rfl

/-- C5 (amended): `find_entry` scans the 32-byte slots in order up to
the first end-of-directory marker and returns the first slot accepted by
`findEntryMatch` — decode, format the 11 name bytes as a short name,
compare (ASCII case-insensitively) with the requested name — wrapped in
`ok`; when no slot matches the result is `ok none`, never an error.  The
amendment: record slots are *not* restricted to short-name records — a
long-name fragment record (attribute 0x0F) also participates, compared
through its raw name bytes (see `c5_lfn_matched_counterexample`);
reconstructed long names, however, are never consulted. -/
theorem c5_find_entry_characterization (data : List Nat) (name : List Char) :
    Directory.find_entry data name =
      .ok (((chunksExact 32 data).takeWhile
        (fun c => c.getD 0 0 ≠ 0)).findSome? (findEntryMatch name)) := by
  unfold Directory.find_entry
  rw [findEntryGo_eq]

/-- A 32-byte long-name fragment record whose leading bytes format as
the short name `A`. -/
def lfnDecoy : List Nat := [0x41] ++ List.replicate 10 0x20 ++ [0x0F] ++ List.replicate 20 0

/-- The decoded form of `lfnDecoy`. -/
def lfnDecoyEntry : DirectoryEntry :=
  ⟨[0x41] ++ List.replicate 10 0x20, 0x0F, 0, 0, 0⟩

/-- C5 counterexample: the claim says long-name fragment records are
never matched.  But `find_entry` never tests the attribute byte: on a
stream holding one valid-shaped long-name fragment record (attribute
0x0F) whose leading bytes format as `A`, looking up `A` returns that
fragment record. -/
theorem c5_lfn_matched_counterexample :
    Directory.find_entry lfnDecoy ['A'] = .ok (some lfnDecoyEntry) ∧
      lfnDecoyEntry.attributes = 0x0F := by
  constructor
  · decide
  · rfl

/-! ## C7: `read_file` truncates to the declared size -/

/-- C7: for every volume and path whose resolution pipeline names an
existing file record — the target parses, has a final component and a
parent, the parent resolves to a cluster whose chain and bytes load, and
the lookup finds a record that is a file — `read_file` returns empty
content when the record's first cluster is 0, and otherwise any content
it returns is the concatenation of the file's cluster-chain bytes
truncated to the record's declared file size, so no byte beyond the
declared size appears in the result. -/
theorem c7_read_file_truncates (fs : Fat32Fs) (path : List Char)
    (tp : Path) (fn : List Char) (pp : Path) (pc : Nat) (chain : ClusterChain)
    (dirdata : List Nat) (entry : DirectoryEntry)
    (htp : fs.target_path path = .ok tp)
    (hfn : tp.file_name = some fn)
    (hpp : tp.parent = some pp)
    (hpc : fs.get_directory_cluster pp = .ok pc)
    (hchain : fs.get_cluster_chain pc = .ok chain)
    (hdir : fs.read_chain_data chain.clusters = .ok dirdata)
    (hfind : Directory.find_entry dirdata fn = .ok (some entry))
    (hfile : entry.is_file = true) :
    (entry.first_cluster = 0 → fs.read_file path = .ok []) ∧
    (entry.first_cluster ≠ 0 →
      ∀ bytes, fs.read_file path = .ok bytes →
        ∃ chain2 raw, fs.get_cluster_chain entry.first_cluster = .ok chain2 ∧
          fs.read_chain_data chain2.clusters = .ok raw ∧
          bytes = raw.take entry.file_size ∧ bytes.length ≤ entry.file_size) := by
  have hbase : fs.read_file path =
      (if ¬ entry.is_file then
        .error (.FileNotFound (tp.to_string ++ " is not a file".toList))
      else if entry.first_cluster = 0 then .ok []
      else
        match fs.get_cluster_chain entry.first_cluster with
        | .error e => .error e
        | .ok chain2 =>
          match fs.read_chain_data chain2.clusters with
          | .error e => .error e
          | .ok file_data =>
            .ok (if entry.file_size < file_data.length then
                   file_data.take entry.file_size
                 else file_data)) := by
    unfold Fat32Fs.read_file
    rw [htp]
    dsimp only
    rw [hfn, hpp]
    dsimp only
    rw [hpc]
    dsimp only
    rw [hchain]
    dsimp only
    rw [hdir]
    dsimp only
    rw [hfind]
  rw [hbase, if_neg (by rw [hfile]; simp)]
  constructor
  · intro h0
    rw [if_pos h0]
  · intro h0 bytes hb
    rw [if_neg h0] at hb
    cases hc2 : fs.get_cluster_chain entry.first_cluster with
    | error e =>
      rw [hc2] at hb
      dsimp only at hb
      exact absurd hb (by simp)
    | ok chain2 =>
      rw [hc2] at hb
      dsimp only at hb
      cases hraw : fs.read_chain_data chain2.clusters with
      | error e =>
        rw [hraw] at hb
        exact absurd hb (by simp)
      | ok raw =>
        rw [hraw] at hb
        dsimp only at hb
        injection hb with hb
        refine ⟨chain2, raw, rfl, hraw, ?_, ?_⟩
        · rw [← hb]
          by_cases hsz : entry.file_size < raw.length
          · rw [if_pos hsz]
          · rw [if_neg hsz, List.take_of_length_le (by omega)]
        · rw [← hb]
          by_cases hsz : entry.file_size < raw.length
          · rw [if_pos hsz]
            simp
          · rw [if_neg hsz]
            omega

/-- The path string `/FILE.TXT` of the demo volume. -/
def demoFilePath : List Char := "/FILE.TXT".toList

set_option maxRecDepth 100000 in
/-- Witness for `c7_read_file_truncates` on the demo volume: reading
`/FILE.TXT` yields exactly `HELLO`, and the theorem instantiated at that
result bounds it by the declared size 5. -/
theorem c7_read_file_truncates_witness :
    Fat32Fs.read_file demoFs demoFilePath = .ok [72, 69, 76, 76, 79] ∧
      ([72, 69, 76, 76, 79] : List Nat).length ≤ demoFileEntry.file_size := by
  constructor
  · decide
  · obtain ⟨chain2, raw, h1, h2, h3, h4⟩ :=
      (c7_read_file_truncates demoFs demoFilePath
        ⟨["FILE.TXT".toList], true⟩ ("FILE.TXT".toList) ⟨[], true⟩ 2 ⟨[2]⟩
        demoRootDir demoFileEntry
        (by decide) (by decide) (by decide) (by decide) (by decide) (by decide)
        (by decide) (by decide)).2 (by decide) [72, 69, 76, 76, 79] (by decide)
    exact h4

/-! ## C4: long-name reconstruction during the directory scan -/

/-- `chunksExactAux` on the empty list is empty for any fuel. -/
theorem chunksExactAux_nil (n fuel : Nat) : chunksExactAux n fuel ([] : List α) = [] := by
  cases fuel with
  | zero => rfl
  | succ f =>
    unfold chunksExactAux
    rw [if_neg (by rintro ⟨h1, h2⟩; simp at h2; omega)]

/-- `chunksExactAux` does not depend on the fuel once the fuel covers
the list length. -/
theorem chunksExactAux_fuel (n : Nat) :
    ∀ (fuel1 fuel2 : Nat) (l : List α), l.length ≤ fuel1 → l.length ≤ fuel2 →
      chunksExactAux n fuel1 l = chunksExactAux n fuel2 l
  | _, _, [], _, _ => by rw [chunksExactAux_nil, chunksExactAux_nil]
  | 0, _, a :: l, h1, _ => by simp at h1
  | _ + 1, 0, a :: l, _, h2 => by simp at h2
  | fuel1 + 1, fuel2 + 1, a :: l, h1, h2 => by
    unfold chunksExactAux
    by_cases hc : 0 < n ∧ n ≤ (a :: l).length
    · rw [if_pos hc, if_pos hc]
      obtain ⟨hn1, hn2⟩ := hc
      have hd : ((a :: l).drop n).length ≤ fuel1 := by
        simp only [List.length_drop, List.length_cons]
        simp only [List.length_cons] at h1
        omega
      have hd2 : ((a :: l).drop n).length ≤ fuel2 := by
        simp only [List.length_drop, List.length_cons]
        simp only [List.length_cons] at h2
        omega
      rw [chunksExactAux_fuel n fuel1 fuel2 _ hd hd2]
    · rw [if_neg hc, if_neg hc]

/-- Splitting into 32-byte chunks peels off a leading 32-byte chunk. -/
theorem chunksExact_cons32 {c rest : List Nat} (hc : c.length = 32) :
    chunksExact 32 (c ++ rest) = c :: chunksExact 32 rest := by
  unfold chunksExact
  have htake : (c ++ rest).take 32 = c := by
    rw [← hc]
    exact List.take_left c rest
  have hdrop : (c ++ rest).drop 32 = rest := by
    rw [← hc]
    exact List.drop_left c rest
  have hlen : (c ++ rest).length = (31 + rest.length) + 1 := by
    simp only [List.length_append, hc]
    omega
  rw [hlen]
  rw [chunksExactAux]
  rw [if_pos ⟨by omega, by simp only [List.length_append, hc]; omega⟩, htake, hdrop]
  rw [chunksExactAux_fuel 32 (31 + rest.length) rest.length rest (by omega) (le_refl _)]

/-- Splitting into 32-byte chunks recovers a flattened list of 32-byte
chunks as a prefix. -/
theorem chunksExact_flatten {frags : List (List Nat)} {tail : List Nat}
    (h : ∀ c ∈ frags, c.length = 32) :
    chunksExact 32 (frags.flatten ++ tail) = frags ++ chunksExact 32 tail := by
  induction frags with
  | nil => simp
  | cons c fr ih =>
    simp only [List.flatten_cons, List.append_assoc]
    rw [chunksExact_cons32 (h c (by simp))]
    rw [ih (fun x hx => h x (List.mem_cons_of_mem c hx))]
    rfl

/-- Inserting below every element appends at the end. -/
theorem insertDescBySeq_append (x : Nat × List Nat) :
    ∀ acc : List (Nat × List Nat), (∀ y ∈ acc, x.1 ≤ y.1) →
      insertDescBySeq x acc = acc ++ [x]
  | [], _ => rfl
  | y :: ys, h => by
    unfold insertDescBySeq
    rw [if_pos (h y (by simp))]
    rw [insertDescBySeq_append x ys (fun z hz => h z (by simp [hz]))]
    rfl

/-- The insertion fold is the identity extension on a non-increasing
list: sorting an already descending-sorted accumulator run changes
nothing. -/
theorem foldl_insertDesc_sorted :
    ∀ (l acc : List (Nat × List Nat)),
      List.Pairwise (fun a b => b.1 ≤ a.1) (acc ++ l) →
      l.foldl (fun acc x => insertDescBySeq x acc) acc = acc ++ l
  | [], acc, _ => by simp
  | x :: l', acc, h => by
    simp only [List.foldl_cons]
    have hx : ∀ y ∈ acc, x.1 ≤ y.1 := by
      rw [List.pairwise_append] at h
      intro y hy
      exact h.2.2 y hy x (by simp)
    rw [insertDescBySeq_append x acc hx]
    have h2 : List.Pairwise (fun a b => b.1 ≤ a.1) ((acc ++ [x]) ++ l') := by
      rw [List.append_assoc]
      simpa using h
    rw [foldl_insertDesc_sorted l' (acc ++ [x]) h2]
    simp

/-- The stable descending sort fixes a list already sorted by
non-increasing sequence number. -/
theorem sortDescBySeq_id {l : List (Nat × List Nat)}
    (h : List.Pairwise (fun a b => b.1 ≤ a.1) l) : sortDescBySeq l = l := by
  unfold sortDescBySeq
  have := foldl_insertDesc_sorted l [] (by simpa using h)
  simpa using this

/-- Decoding a 32-byte slot whose first byte is neither sentinel
succeeds with the raw field extraction. -/
theorem from_bytes_ok {ch : List Nat} (hlen : ch.length = 32) (h0 : ch.getD 0 0 ≠ 0)
    (hdel : ch.getD 0 0 ≠ 0xE5) :
    DirectoryEntry.from_bytes ch = .ok (DirectoryEntry.decode ch) := by
  unfold DirectoryEntry.from_bytes
  rw [if_neg (by omega)]
  dsimp only
  rw [if_neg (by rw [decode_name_head]; exact fun hor => hor.elim h0 hdel)]

/-- Hypotheses making one 32-byte slot a valid long-name fragment record
that the scan accumulates: full length, no sentinel first byte, the
long-name attribute, and a passing validity check. -/
def LfnHyp (ch : List Nat) : Prop :=
  ch.length = 32 ∧ ch.getD 0 0 ≠ 0 ∧ ch.getD 0 0 ≠ 0xE5 ∧ ch.getD 11 0 = 0x0F ∧
    (LongFileNameEntry.from_chunk ch).is_valid = true

instance (ch : List Nat) : Decidable (LfnHyp ch) := by
  unfold LfnHyp
  infer_instance

/-- The accumulator element one fragment contributes: its sequence
number and its 13 UTF-16 units. -/
def fragPart (ch : List Nat) : Nat × List Nat :=
  ((LongFileNameEntry.from_chunk ch).sequence_number,
    (LongFileNameEntry.from_chunk ch).name_chars)

/-- Hypotheses making one 32-byte slot a decodable short-name record
that is not a volume label. -/
def ShortHyp (ch : List Nat) : Prop :=
  ch.length = 32 ∧ ch.getD 0 0 ≠ 0 ∧ ch.getD 0 0 ≠ 0xE5 ∧ ch.getD 11 0 ≠ 0x0F ∧
    (DirectoryEntry.decode ch).is_volume_label = false

instance (ch : List Nat) : Decidable (ShortHyp ch) := by
  unfold ShortHyp
  infer_instance

/-- The entry the scan emits for a short-name record under pending parts
`parts`: the decoded record, with the reconstructed long name attached
when the accumulator and the built name are non-empty. -/
def mkShortEntry (ch : List Nat) (parts : List (Nat × List Nat)) : DirEntry :=
  if parts ≠ [] ∧ buildLongName parts ≠ [] then
    (DirEntry.new (DirectoryEntry.decode ch)).with_long_name (buildLongName parts)
  else DirEntry.new (DirectoryEntry.decode ch)

/-- A run of valid long-name fragments whose sequence numbers continue
the accumulator in non-increasing order, followed by a short-name
record: the scan accumulates every fragment in stream order (the
descending sorts fired by last-flagged fragments fix the accumulator),
then emits the short record and attaches the name built from the
accumulated parts. -/
theorem readEntriesGo_run :
    ∀ (frags : List (List Nat)) (s : List (Nat × List Nat)) (shortChunk : List Nat)
      (rest : List (List Nat)),
      (∀ ch ∈ frags, LfnHyp ch) →
      List.Pairwise (fun a b => b.1 ≤ a.1) (s ++ frags.map fragPart) →
      ShortHyp shortChunk →
      readEntriesGo (frags ++ shortChunk :: rest) s =
        mkShortEntry shortChunk (s ++ frags.map fragPart) :: readEntriesGo rest []
  | [], s, shortChunk, rest, _, _, hshort => by
    obtain ⟨hlen, h0, hdel, hattr, hvol⟩ := hshort
    simp only [List.nil_append, List.map_nil, List.append_nil]
    rw [readEntriesGo]
    rw [if_neg h0, if_neg hdel, if_neg hattr]
    rw [from_bytes_ok hlen h0 hdel]
    dsimp only
    rw [if_neg (by rw [hvol]; simp)]
    rfl
  | frag :: frags', s, shortChunk, rest, hfrags, hsort, hshort => by
    obtain ⟨hlen, h0, hdel, hattr, hvalid⟩ := hfrags frag (by simp)
    have hfrags' : ∀ ch ∈ frags', LfnHyp ch :=
      fun ch hch => hfrags ch (by simp [hch])
    have hsort1 : List.Pairwise (fun a b => b.1 ≤ a.1)
        ((s ++ [fragPart frag]) ++ frags'.map fragPart) := by
      rw [List.append_assoc]
      simpa using hsort
    have hpre : List.Pairwise (fun a b => b.1 ≤ a.1) (s ++ [fragPart frag]) :=
      (List.pairwise_append.mp hsort1).1
    rw [List.cons_append, readEntriesGo]
    rw [if_neg h0, if_neg hdel, if_pos hattr]
    dsimp only
    rw [if_pos hvalid]
    rw [show ((LongFileNameEntry.from_chunk frag).sequence_number,
        (LongFileNameEntry.from_chunk frag).name_chars) = fragPart frag from rfl]
    by_cases hlast : (LongFileNameEntry.from_chunk frag).is_last = true
    · rw [if_pos hlast, sortDescBySeq_id hpre]
      rw [readEntriesGo_run frags' (s ++ [fragPart frag]) shortChunk rest hfrags'
        hsort1 hshort]
      rw [List.append_assoc]
      rfl
    · rw [if_neg hlast]
      rw [readEntriesGo_run frags' (s ++ [fragPart frag]) shortChunk rest hfrags'
        hsort1 hshort]
      rw [List.append_assoc]
      rfl

/-- C4 (amended): in a directory byte stream where one or more valid
long-name fragment records precede a (non-volume-label) short-name
record and appear in non-increasing sequence-number order — the on-disk
storage order the format prescribes, with the last-flagged fragment
first — the scan attaches to that record the long name built by
concatenating the accumulated fragments in that (descending) order, each
fragment contributing its UTF-16 units up to the first 0x0000 or 0xFFFF
terminator with units at or above 0x80 dropped (`buildLongName`); no
name is attached when nothing survives (see
`c4_nonascii_dropped_counterexample`).  The original claim promised the
full characters of the fragments; the source keeps only units below
0x80, and it sorts only at last-flagged fragments, so stream order
supplies the descending order. -/
theorem c4_long_name_attached (frags : List (List Nat)) (shortChunk : List Nat)
    (rest : List Nat) (chain : ClusterChain)
    (hne : frags ≠ [])
    (hfrags : ∀ ch ∈ frags, LfnHyp ch)
    (hsorted : List.Pairwise (fun a b => b.1 ≤ a.1) (frags.map fragPart))
    (hshort : ShortHyp shortChunk) :
    Directory.read_entries chain (frags.flatten ++ shortChunk ++ rest) =
      .ok ({ entry := DirectoryEntry.decode shortChunk,
             long_name :=
               if buildLongName (frags.map fragPart) = [] then none
               else some (buildLongName (frags.map fragPart)) } ::
        readEntriesGo (chunksExact 32 rest) []) := by
  unfold Directory.read_entries
  rw [List.append_assoc, chunksExact_flatten (fun c hc => (hfrags c hc).1),
    chunksExact_cons32 hshort.1]
  rw [readEntriesGo_run frags [] shortChunk (chunksExact 32 rest) hfrags
    (by simpa using hsorted) hshort]
  have hmk : mkShortEntry shortChunk (frags.map fragPart) =
      { entry := DirectoryEntry.decode shortChunk,
        long_name :=
          if buildLongName (frags.map fragPart) = [] then none
          else some (buildLongName (frags.map fragPart)) } := by
    unfold mkShortEntry
    have hpne : frags.map fragPart ≠ [] := by simpa using hne
    by_cases hbn : buildLongName (frags.map fragPart) = []
    · rw [if_neg (by simp [hbn]), if_pos hbn]
      rfl
    · rw [if_pos ⟨hpne, hbn⟩, if_neg hbn]
      rfl
  rw [List.nil_append, hmk]

/-- Two long-name fragments in on-disk order (sequence 2 with the last
flag, then sequence 1) spelling the 16-character name
`ABCDEFGHIJKLMNOP`: fragment 1 holds characters 1..13, fragment 2 holds
`NOP` and a terminator. -/
def lfnFrag2 : List Nat :=
  [0x42] ++ [0x4E, 0, 0x4F, 0, 0x50, 0, 0, 0, 0xFF, 0xFF] ++ [0x0F, 0, 0] ++
    List.replicate 12 0xFF ++ [0, 0] ++ List.replicate 4 0xFF

/-- The sequence-1 fragment holding characters `A`..`M`. -/
def lfnFrag1 : List Nat :=
  [0x01] ++ [65, 0, 66, 0, 67, 0, 68, 0, 69, 0] ++ [0x0F, 0, 0] ++
    [70, 0, 71, 0, 72, 0, 73, 0, 74, 0, 75, 0] ++ [0, 0] ++ [76, 0, 77, 0]

/-- The short-name record `LONGNA~1.TXT` that follows the fragments. -/
def lfnShortChunk : List Nat :=
  [76, 79, 78, 71, 78, 65, 126, 49, 84, 88, 84] ++ [0x20] ++ List.replicate 20 0

/-- The decoded form of `lfnShortChunk`. -/
def lfnShortEntry : DirectoryEntry :=
  ⟨[76, 79, 78, 71, 78, 65, 126, 49, 84, 88, 84], 0x20, 0, 0, 0⟩

/-- Witness for `c4_long_name_attached`: on the two-fragment stream the
scan emits the short record with the name the source builds — the
fragments concatenated in descending sequence order, here
`NOPABCDEFGHIJKLM` (the sequence-2 block first). -/
theorem c4_long_name_attached_witness :
    Directory.read_entries ⟨[2]⟩ ([lfnFrag2, lfnFrag1].flatten ++ lfnShortChunk ++ []) =
      .ok [⟨lfnShortEntry, some ("NOPABCDEFGHIJKLM".toList)⟩] := by
  rw [c4_long_name_attached [lfnFrag2, lfnFrag1] lfnShortChunk [] ⟨[2]⟩
    (by decide) (by decide) (by decide) (by decide)]
  decide

/-- A single valid long-name fragment whose only character before the
terminator is the non-ASCII unit 0x00E9. -/
def lfnNonAsciiFrag : List Nat :=
  [0x41] ++ [0xE9, 0, 0, 0, 0xFF, 0xFF, 0xFF, 0xFF, 0xFF, 0xFF] ++ [0x0F, 0, 0] ++
    List.replicate 12 0xFF ++ [0, 0] ++ List.replicate 4 0xFF

/-- C4 counterexample: the claim says the attached long name equals the
concatenation of the accumulated fragments characters up to the
terminator.  A valid fragment contributes the single unit 0x00E9 before
its terminator, so the claim demands the one-character name `é` on the
following short record — but the source drops every unit at or above
0x80, the built name is empty, and no long name is attached at all. -/
theorem c4_nonascii_dropped_counterexample :
    Directory.read_entries ⟨[2]⟩ (lfnNonAsciiFrag ++ lfnShortChunk) =
        .ok [⟨lfnShortEntry, none⟩] ∧
      (LongFileNameEntry.from_chunk lfnNonAsciiFrag).name_chars.takeWhile
        (fun ch => ch ≠ 0 ∧ ch ≠ 0xFFFF) = [0xE9] ∧
      (LongFileNameEntry.from_chunk lfnNonAsciiFrag).is_valid = true :=
  ⟨by decide, by decide, by decide⟩

end FatSpec









